import Mathlib

/-!
Shallow embedding of the `stoic` repository's template registry, view-model
validation, rendering, and session subsystems, with theorems checking the
specification's claims against the embedded code.

Go `map[string]*templateField` values are embedded as association lists kept
in insertion order (Go map iteration order is unspecified; the association
list is a determinization).  Go byte slices are `List Nat`, `time.Time` is a
`Nat`, and fallible Go functions return `Option`/`Except`.
-/

namespace Stoic

/-- Embeds the Go struct `templateField`: a field name plus a mapping from
child names to child field trees (`Children`). -/
inductive templateField where
  | mk (name : String) (children : List (String × templateField))
deriving Repr

def templateField.name : templateField → String
  | .mk n _ => n

def templateField.children : templateField → List (String × templateField)
  | .mk _ cs => cs

/-- Map lookup on the children association list (first match). -/
def lookupChild (cs : List (String × templateField)) (n : String) : Option templateField :=
  match cs with
  | [] => none
  | (m, t) :: rest => if m = n then some t else lookupChild rest n

/-- Map update on the children association list: replace the entry for `n`
if present, otherwise append a new one (preserving insertion order). -/
def setChild (cs : List (String × templateField)) (n : String) (t : templateField) :
    List (String × templateField) :=
  match cs with
  | [] => [(n, t)]
  | (m, u) :: rest => if m = n then (n, t) :: rest else (m, u) :: setChild rest n t

/-- Embeds `newTemplateField`. -/
def newTemplateField (name : String) : templateField := .mk name []

/-- Embeds the mutation pattern `current := parentField; for part in path
current = current.addChild(part)` followed by applying `f` to the final
`current`: `addChild` returns the existing child when present and inserts a
fresh one otherwise, and the mutation of the child is visible in the parent. -/
def modifyPath (f : templateField → templateField) :
    templateField → List String → templateField
  | t, [] => f t
  | .mk name cs, p :: ps =>
      let child := (lookupChild cs p).getD (newTemplateField p)
      .mk name (setChild cs p (modifyPath f child ps))

/-- Adding a chain of `addChild` calls along `path` with no further action. -/
def addPath (t : templateField) (path : List String) : templateField :=
  modifyPath id t path

mutual
/-- Embeds `compareTemplateFields` (mutually with the loop over the template
tree's children).  The first component is `missing`, the second `extra`. -/
def compareTemplateFields (tf sf : templateField) : List String × List String :=
  match tf, sf with
  | .mk tn tcs, .mk sn scs =>
    let r := cmpChildren sn scs tcs
    let extra2 := scs.filterMap fun p =>
      if (lookupChild tcs p.1).isSome then none else some (tn ++ "->" ++ p.1)
    (r.1, r.2 ++ extra2)

def cmpChildren (sname : String) (scs : List (String × templateField)) :
    List (String × templateField) → List String × List String
  | [] => ([], [])
  | (name, child) :: rest =>
      let head :=
        match lookupChild scs name with
        | none => ([sname ++ "->" ++ name], [])
        | some sc => compareTemplateFields child sc
      let tail := cmpChildren sname scs rest
      (head.1 ++ tail.1, head.2 ++ tail.2)
end

mutual
/-- Structural agreement of two field trees: every template child occurs in
the data tree (recursively) and every data child occurs in the template
tree.  This is the condition under which `compareTemplateFields` returns two
empty lists (proved below). -/
def fieldTreesAgree (tf sf : templateField) : Bool :=
  match tf, sf with
  | .mk _ tcs, .mk _ scs =>
      agreeChildren scs tcs && scs.all fun p => (lookupChild tcs p.1).isSome

def agreeChildren (scs : List (String × templateField)) :
    List (String × templateField) → Bool
  | [] => true
  | (name, child) :: rest =>
      (match lookupChild scs name with
       | none => false
       | some sc => fieldTreesAgree child sc) && agreeChildren scs rest
end

/-! ### Template parse trees

Embedding of the `text/template/parse` node shapes that
`extractFieldsFromTemplate` inspects.  A pipeline is a list of commands,
each with a list of arguments; an argument is a `FieldNode` (an `Ident`
chain such as `.A.B`), a `DotNode`, or anything else (ignored by the
extractor). -/

/-- A pipeline argument (`parse.FieldNode` / `parse.DotNode` / other). -/
inductive Arg where
  | fieldArg (ident : List String)
  | dotArg
  | otherArg
deriving Repr, DecidableEq

/-- A `parse.PipeNode` flattened to its commands' argument lists. -/
structure Pipe where
  cmds : List (List Arg)
deriving Repr, DecidableEq

/-- Embeds the `parse.Node` shapes handled by `extractFieldsFromTemplate`:
`PipeNode`, `ActionNode`, `TemplateNode` (with optional pipe), `ListNode`,
`IfNode`, `RangeNode`, `WithNode`; `textN` stands for every other node kind,
which the extractor ignores.  Components the Go extractor never visits (an
`if`/`with` condition pipe, a `range`/`with` body list and else list) are
kept in the constructors to mirror the source shapes. -/
inductive PNode where
  | pipeN (p : Pipe)
  | actionN (p : Pipe)
  | templateN (name : String) (p : Option Pipe)
  | listN (nodes : List PNode)
  | ifN (cond : Pipe) (list : PNode) (elseList : Option PNode)
  | rangeN (cond : Pipe) (list : PNode) (elseList : Option PNode)
  | withN (cond : Pipe) (list : PNode) (elseList : Option PNode)
  | textN
deriving Repr

/-- A template namespace (`*template.Template` with its associated
templates): name-to-parse-tree association list, lookups by first match. -/
def Templates := List (String × PNode)

/-- Embeds `Template.Lookup` on a namespace. -/
def tmplLookup (ts : Templates) (name : String) : Option PNode :=
  match ts with
  | [] => none
  | (m, t) :: rest => if m = name then some t else tmplLookup rest name

/-- Adding/overwriting an association (what `Parse` does for each defined
template name). -/
def tmplInsert (ts : Templates) (name : String) (tree : PNode) : Templates :=
  match ts with
  | [] => [(name, tree)]
  | (m, t) :: rest =>
      if m = name then (name, tree) :: rest else (m, t) :: tmplInsert rest name tree

/-- The `PipeNode`/`ActionNode` cases of `extractFieldsFromTemplate`: every
`FieldNode` argument adds its `Ident` chain to the parent field. -/
def extractPipe (p : Pipe) (parent : templateField) : templateField :=
  p.cmds.foldl
    (fun acc args =>
      args.foldl
        (fun acc a =>
          match a with
          | .fieldArg ps => addPath acc ps
          | _ => acc)
        acc)
    parent

/-- The `TemplateNode`-with-pipe loop of `extractFieldsFromTemplate`: for a
`FieldNode` argument the `Ident` chain is added and the included template's
fields are extracted under the chain's last node (`recur` performs that
extraction); for a `DotNode` argument they are extracted under the parent
itself.  `tr?` is `root.Lookup(name)` for the invoked template name. -/
def invokeArgs (recur : PNode → templateField → templateField) (tr? : Option PNode) :
    List Arg → templateField → templateField
  | [], parent => parent
  | a :: rest, parent =>
      let parent' :=
        match a with
        | .fieldArg ps =>
            modifyPath
              (fun cur =>
                match tr? with
                | some tr => recur tr cur
                | none => cur)
              parent ps
        | .dotArg =>
            match tr? with
            | some tr => recur tr parent
            | none => parent
        | .otherArg => parent
      invokeArgs recur tr? rest parent'

mutual
/-- One traversal level of `extractFieldsFromTemplate`: structural on the
node, with `recur` standing for the recursive extraction of an included
template's tree (the only non-structural recursion in the Go function). -/
def extractStep (recur : PNode → templateField → templateField) (root : Templates) :
    PNode → templateField → templateField
  | .pipeN p, parent => extractPipe p parent
  | .actionN p, parent => extractPipe p parent
  | .templateN name po, parent =>
      match po with
      | some p => invokeArgs recur (tmplLookup root name) p.cmds.flatten parent
      | none =>
          match tmplLookup root name with
          | some tr => recur tr parent
          | none => parent
  | .listN ns, parent => extractStepList recur root ns parent
  | .ifN _ l el, parent =>
      let p1 := extractStep recur root l parent
      match el with
      | some e => extractStep recur root e p1
      | none => p1
  | .rangeN cond _ _, parent => extractPipe cond parent
  | .withN _ l _, parent => extractStep recur root l parent
  | .textN, parent => parent

/-- The `ListNode` loop of `extractFieldsFromTemplate`. -/
def extractStepList (recur : PNode → templateField → templateField)
    (root : Templates) : List PNode → templateField → templateField
  | [], parent => parent
  | h :: t, parent => extractStepList recur root t (extractStep recur root h parent)
end

/-- Embeds `extractFieldsFromTemplate`.  The Go function recurses through
`root.Lookup` on `TemplateNode` inclusions, which is unbounded (a cyclic
include chain diverges in Go); `fuel` bounds that inclusion depth — each
inclusion consumes one unit, and an inclusion met with no fuel left is
skipped (its pipe's field paths are still added, as in the Go code, but
the included tree is not entered). -/
def extractFieldsFromTemplate (root : Templates) : Nat → PNode → templateField → templateField
  | 0 => extractStep (fun _ parent => parent) root
  | f + 1 => extractStep (extractFieldsFromTemplate root f) root

/-! ### Reflection over view models

`extractFieldsFromData`/`extractFieldHelper` inspect a Go value through
`reflect`.  `GoType` embeds the type shapes the helper distinguishes
(struct with named fields carrying an exported flag, pointer, everything
else); `GoValue` embeds the dynamic values `extractFieldsFromData`
distinguishes (`nil`, pointer — dereferenced once —, struct, map with
stringified keys and per-entry dynamic element types, everything else). -/

/-- A Go type as seen by `extractFieldHelper`: each struct field is
`(name, exported, type)` where `exported` embeds `field.PkgPath == ""`. -/
inductive GoType where
  | structT (fields : List (String × Bool × GoType))
  | ptrT (elem : GoType)
  | otherT
deriving Repr

/-- A Go value as seen by `extractFieldsFromData`. -/
inductive GoValue where
  | nilV
  | ptrV (elem : GoValue)
  | structV (fields : List (String × Bool × GoType))
  | mapV (entries : List (String × GoType))
  | otherV
deriving Repr

mutual
/-- Embeds `extractFieldHelper`: dereference a pointer type once; on a
struct type add a child per exported field, recursing only when the field's
own type is a struct (so pointer-to-struct, slice, map and string fields
stay leaves). -/
def extractFieldHelper (typ : GoType) (parent : templateField) : templateField :=
  match typ with
  | .ptrT (.structT fs) => extractStructFields fs parent
  | .structT fs => extractStructFields fs parent
  | _ => parent

/-- The field loop of `extractFieldHelper`. -/
def extractStructFields (fs : List (String × Bool × GoType))
    (parent : templateField) : templateField :=
  match fs with
  | [] => parent
  | (name, exported, fty) :: rest =>
      let parent' :=
        if exported then
          match fty with
          | .structT _ => modifyPath (extractFieldHelper fty) parent [name]
          | _ => addPath parent [name]
        else parent
      extractStructFields rest parent'
end

/-- Embeds `extractFieldsFromData`: `nil` gives an empty field set; a
pointer is dereferenced once; a map contributes a child per key whose
subtree comes from the entry's dynamic type; a struct is handed to
`extractFieldHelper`; anything else gives an empty field set. -/
def extractFieldsFromData (v : GoValue) : templateField :=
  match v with
  | .nilV => newTemplateField "Root"
  | v =>
      let root := newTemplateField "Root"
      match (match v with | .ptrV inner => inner | v' => v') with
      | .mapV entries =>
          entries.foldl
            (fun acc e => modifyPath (extractFieldHelper e.2) acc [e.1]) root
      | .structV fs => extractFieldHelper (.structT fs) root
      | _ => root

/-! ### View-model validation -/

/-- The fixed list of well-known block names inspected by
`validateViewModelAllBlocks`. -/
def knownBlocks : List String := ["content", "nav", "head", "title"]

/-- Embeds `strings.Join(l, ", ")`. -/
def joinComma (l : List String) : String := String.intercalate ", " l

/-- The error-message builder shared by `validateViewModelAllBlocks` and
`validateViewModel`. -/
def mismatchMessage (missing extra : List String) : String :=
  (if extra.length > 0 then "extra fields [" ++ joinComma extra ++ "] " else "") ++
  (if missing.length > 0 then "missing fields [" ++ joinComma missing ++ "]" else "")

/-- The field tree `validateViewModelAllBlocks` builds for a page template:
the union of the fields extracted from the block named `templatePath` and
from each present block among `knownBlocks`. -/
def rootTemplateFieldOf (tmpl : Templates) (templatePath : String) (fuel : Nat) :
    templateField :=
  let blockNames := templatePath :: knownBlocks.filter fun n => (tmplLookup tmpl n).isSome
  blockNames.foldl
    (fun acc name =>
      match tmplLookup tmpl name with
      | some tree => extractFieldsFromTemplate tmpl fuel tree acc
      | none => acc)
    (newTemplateField "Root")

/-- Embeds `validateViewModelAllBlocks`; `none` is a nil error. -/
def validateViewModelAllBlocks (data : GoValue) (tmpl : Templates)
    (templatePath : String) (fuel : Nat) : Option String :=
  let rootTemplateField := rootTemplateFieldOf tmpl templatePath fuel
  let rootStructField := extractFieldsFromData data
  let r := compareTemplateFields rootTemplateField rootStructField
  if r.2.length = 0 ∧ r.1.length = 0 then none
  else some (mismatchMessage r.1 r.2)

/-! ### Template manager: loading, lookup, reload, execution

The `fs.FS` abstraction is embedded as the two directory listings the
loader consumes: the `fs.ReadDir(IncludeDir)` entries and the
`fs.WalkDir(RootDir)` visit sequence.  A file's content is carried already
run through `text/template` parsing (`TemplateSrc`): parsing a file under a
name associates its main tree under that name plus one tree per
`{{define}}` block, or fails. -/

/-- The parse outcome of one template file's content. -/
inductive TemplateSrc where
  | parsed (main : PNode) (defines : List (String × PNode))
  | parseError (msg : String)

/-- Embeds `tmpl.New(name).Parse(content)`: associate the file's main tree under
`name` and each `{{define}}`d tree under its own name. -/
def parseInto (ts : Templates) (name : String) (src : TemplateSrc) :
    Except String Templates :=
  match src with
  | .parseError e => .error e
  | .parsed main defines =>
      .ok (defines.foldl (fun acc d => tmplInsert acc d.1 d.2) (tmplInsert ts name main))

/-- The filesystem as the loader sees it. -/
structure FS where
  /-- Entries from `fs.ReadDir(IncludeDir)`: entry name, `IsDir`, content. -/
  includeEntries : List (String × Bool × TemplateSrc)
  /-- Visit sequence of `fs.WalkDir(RootDir)`: full path, `IsDir`, content. -/
  walkEntries : List (String × Bool × TemplateSrc)

/-- Embeds `TemplateManagerOptions` (the `FS` handle and `FuncMap` are
passed separately / irrelevant to field extraction). -/
structure TemplateManagerOptions where
  rootDir : String
  includeDir : String
  baseTemplate : String
  reload : Bool
deriving Repr, DecidableEq

def defaultBaseTemplate : String := "base.html"

/-- Embeds `strings.HasPrefix`, over the character sequences (Go works on the
byte sequences; for these paths the two coincide). -/
def strHasPfx (s p : String) : Bool :=
  p.data.isPrefixOf s.data

/-- Embeds `strings.TrimPrefix`. -/
def trimPfx (s p : String) : String :=
  if strHasPfx s p then String.mk (s.data.drop p.data.length) else s

/-- Embeds `relPath`: the relative path from `base` to `target`. -/
def relPath (base target : String) : Except String String :=
  if base = "." ∨ base = "" then .ok target
  else if ¬ strHasPfx target base then
    .error ("target \"" ++ target ++ "\" is not under base \"" ++ base ++ "\"")
  else .ok (trimPfx (trimPfx target base) "/")

/-- The include-loading loop of `loadTemplates`: directories are skipped,
each file is parsed into the shared `includes` namespace under its entry
name. -/
def loadIncludesLoop (includeDir : String) (ts : Templates) :
    List (String × Bool × TemplateSrc) → Except String Templates
  | [] => .ok ts
  | (name, isDir, src) :: rest =>
      if isDir then loadIncludesLoop includeDir ts rest
      else
        match parseInto ts name src with
        | .error e =>
            .error ("parsing include " ++ includeDir ++ "/" ++ name ++ ": " ++ e)
        | .ok ts' => loadIncludesLoop includeDir ts' rest

/-- Registry lookup (`tm.storedTemplates[templatePath]`). -/
def lookupStored (m : List (String × Templates)) (path : String) : Option Templates :=
  match m with
  | [] => none
  | (k, v) :: rest => if k = path then some v else lookupStored rest path

/-- Registry assignment (`tm.storedTemplates[relativePath] = newTemplate`). -/
def storedInsert (m : List (String × Templates)) (path : String) (t : Templates) :
    List (String × Templates) :=
  match m with
  | [] => [(path, t)]
  | (k, v) :: rest =>
      if k = path then (path, t) :: rest else (k, v) :: storedInsert rest path t

/-- The `fs.WalkDir` callback loop of `loadTemplates`: skip directories,
compute the path relative to `RootDir`, clone the includes namespace, parse
the file into the clone under the relative path, and store the clone under
the relative path. -/
def walkLoad (rootDir : String) (includes : Templates)
    (stored : List (String × Templates)) :
    List (String × Bool × TemplateSrc) → Except String (List (String × Templates))
  | [] => .ok stored
  | (filePath, isDir, src) :: rest =>
      if isDir then walkLoad rootDir includes stored rest
      else
        match relPath rootDir filePath with
        | .error e => .error e
        | .ok relativePath =>
            match parseInto includes relativePath src with
            | .error e => .error ("parsing template " ++ filePath ++ ": " ++ e)
            | .ok ns => walkLoad rootDir includes (storedInsert stored relativePath ns) rest

/-- The includes-loading stage of `loadTemplates`: the namespace starts
empty (`template.New("root")`) and is skipped entirely when `IncludeDir` is
empty. -/
def loadIncludes (opts : TemplateManagerOptions) (fs : FS) : Except String Templates :=
  if opts.includeDir = "" then .ok []
  else loadIncludesLoop opts.includeDir [] fs.includeEntries

/-- Embeds `loadTemplates`: build the includes namespace (empty when
`IncludeDir` is empty), record whether the base template is among the
includes, then load every page template under `RootDir`.  Returns the new
registry and `baseExists`. -/
def loadTemplates (opts : TemplateManagerOptions) (fs : FS) :
    Except String (List (String × Templates) × Bool) :=
  match loadIncludes opts fs with
  | .error e => .error e
  | .ok includes =>
      let baseExists := (tmplLookup includes opts.baseTemplate).isSome
      match walkLoad opts.rootDir includes [] fs.walkEntries with
      | .error e => .error e
      | .ok stored => .ok (stored, baseExists)

/-- Embeds `TemplateManager` (the mutex is irrelevant to the sequential
embedding). -/
structure TemplateManager where
  storedTemplates : List (String × Templates)
  baseExists : Bool
  options : TemplateManagerOptions

/-- Embeds `NewTemplateManager`: default the base-template name, then load. -/
def NewTemplateManager (opts : TemplateManagerOptions) (fs : FS) :
    Except String TemplateManager :=
  let opts :=
    if opts.baseTemplate = "" then { opts with baseTemplate := defaultBaseTemplate }
    else opts
  match loadTemplates opts fs with
  | .error e => .error e
  | .ok r => .ok ⟨r.1, r.2, opts⟩

/-- The shared `if tm.options.Reload { tm.loadTemplates() }` preamble of
`getTemplateForExecution` and `GetTemplate`, including its error wrapping.
`fs` is the filesystem contents at call time (hot reload re-reads them). -/
def reloadIfNeeded (tm : TemplateManager) (fs : FS) : Except String TemplateManager :=
  if tm.options.reload then
    match loadTemplates tm.options fs with
    | .error e => .error ("reloading templates: " ++ e)
    | .ok r => .ok { tm with storedTemplates := r.1, baseExists := r.2 }
  else .ok tm

/-- Embeds `getTemplateForExecution`: reload when enabled, then look the
template up in the (possibly refreshed) registry.  The returned manager is
the receiver's state after the call (Go mutates it in place). -/
def getTemplateForExecution (tm : TemplateManager) (fs : FS) (templatePath : String) :
    Except String (Templates × TemplateManager) :=
  match reloadIfNeeded tm fs with
  | .error e => .error e
  | .ok tm' =>
      match lookupStored tm'.storedTemplates templatePath with
      | none => .error ("couldn't find template: " ++ templatePath)
      | some t => .ok (t, tm')

/-- Embeds `TemplateExecutor` (its `manager` pointer is passed separately). -/
structure TemplateExecutor where
  templateName : String
  baseTemplateName : String
deriving Repr, DecidableEq

/-- Embeds `TemplateManager.getExecutor` (no reload): look up, validate the
example model against all blocks, and build an executor. -/
def getExecutor (tm : TemplateManager) (templatePath : String)
    (exampleModel : GoValue) (fuel : Nat) : Except String TemplateExecutor :=
  match lookupStored tm.storedTemplates templatePath with
  | none => .error ("couldn't find template: " ++ templatePath)
  | some tmpl =>
      match validateViewModelAllBlocks exampleModel tmpl templatePath fuel with
      | some err =>
          .error ("couldn't validate view model for [" ++ templatePath ++ "]: " ++ err)
      | none =>
          .ok { templateName := templatePath, baseTemplateName := tm.options.baseTemplate }

/-- Embeds `TemplateManager.GetTemplate`: reload when enabled, look up,
validate, and return the parsed template (with the receiver's state after
the call). -/
def GetTemplate (tm : TemplateManager) (fs : FS) (templatePath : String)
    (exampleModel : GoValue) (fuel : Nat) :
    Except String (Templates × TemplateManager) :=
  match reloadIfNeeded tm fs with
  | .error e => .error e
  | .ok tm' =>
      match lookupStored tm'.storedTemplates templatePath with
      | none => .error ("couldn't find template: " ++ templatePath)
      | some tmpl =>
          match validateViewModelAllBlocks exampleModel tmpl templatePath fuel with
          | some err =>
              .error ("couldn't validate view model for [" ++ templatePath ++ "]: " ++ err)
          | none => .ok (tmpl, tm')

/-- Embeds `usesBaseLayout`: the template defines a `content` block. -/
def usesBaseLayout (tmpl : Templates) : Bool :=
  (tmplLookup tmpl "content").isSome

/-- The observable effect of `tmpl.ExecuteTemplate(writer, execName, data)`:
which template of which namespace is executed with which data, its output
going to the supplied writer.  The rendering itself is the external
`html/template` engine. -/
structure ExecCall where
  tmplNamespace : Templates
  execName : String
  execData : GoValue

/-- Embeds `TemplateExecutor.ExecuteToWriter`: fetch the page template
(reloading when enabled), pick the base template's name when the page
defines a `content` block and a base template exists, else the page's own
name, and execute that template, writing to the supplied writer. -/
def ExecuteToWriter (tm : TemplateManager) (fs : FS) (te : TemplateExecutor)
    (data : GoValue) : Except String (ExecCall × TemplateManager) :=
  match getTemplateForExecution tm fs te.templateName with
  | .error e => .error e
  | .ok (tmpl, tm') =>
      let execName :=
        if usesBaseLayout tmpl && tm'.baseExists then te.baseTemplateName
        else te.templateName
      .ok ({ tmplNamespace := tmpl, execName := execName, execData := data }, tm')

/-! ### Sessions: token blob serialization, encryption, session CRUD

Byte slices are `List Nat`, `time.Time` is a `Nat`.  `t.After(u)` is
`t > u`. -/

/-- The `oauth2.Token` fields the session subsystem reads and writes. -/
structure Token where
  accessToken : String
  tokenType : String
  refreshToken : String
  expiry : Nat
deriving Repr, DecidableEq

/-- Embeds the `tokenData` struct stored in `sessions.token_data`. -/
structure tokenData where
  accessToken : String
  tokenType : String
  refreshToken : String
  expiry : Nat
  roles : List String
deriving Repr, DecidableEq

/-- Length-prefixed encoding of a string's character codes. -/
def encodeString (s : String) : List Nat :=
  s.data.length :: s.data.map Char.toNat

/-- Decode `n` character codes. -/
def decodeChars : Nat → List Nat → Option (List Char × List Nat)
  | 0, rest => some ([], rest)
  | _ + 1, [] => none
  | n + 1, c :: rest => (decodeChars n rest).map fun p => (Char.ofNat c :: p.1, p.2)

def decodeString (l : List Nat) : Option (String × List Nat) :=
  match l with
  | [] => none
  | n :: rest => (decodeChars n rest).map fun p => (String.mk p.1, p.2)

def encodeStringList (l : List String) : List Nat :=
  l.length :: (l.map encodeString).flatten

def decodeStrings : Nat → List Nat → Option (List String × List Nat)
  | 0, rest => some ([], rest)
  | n + 1, l =>
      (decodeString l).bind fun p =>
        (decodeStrings n p.2).map fun q => (p.1 :: q.1, q.2)

def decodeStringList (l : List Nat) : Option (List String × List Nat) :=
  match l with
  | [] => none
  | n :: rest => decodeStrings n rest

/-- Models `json.Marshal` of `tokenData`: the JSON library is external, so
it is embedded as an injective, decodable serialization of the five
fields. -/
def marshalTokenData (td : tokenData) : List Nat :=
  encodeString td.accessToken ++ encodeString td.tokenType ++
    encodeString td.refreshToken ++ [td.expiry] ++ encodeStringList td.roles

/-- Models `json.Unmarshal` into `tokenData`. -/
def unmarshalTokenData (l : List Nat) : Option tokenData :=
  (decodeString l).bind fun a =>
    (decodeString a.2).bind fun t =>
      (decodeString t.2).bind fun r =>
        match r.2 with
        | [] => none
        | e :: rest =>
            (decodeStringList rest).bind fun rs =>
              match rs.2 with
              | [] => some { accessToken := a.1, tokenType := t.1,
                             refreshToken := r.1, expiry := e, roles := rs.1 }
              | _ => none

/-- Embeds `tokenToJSON`. -/
def tokenToJSON (token : Token) (roles : List String) : List Nat :=
  marshalTokenData
    { accessToken := token.accessToken, tokenType := token.tokenType,
      refreshToken := token.refreshToken, expiry := token.expiry, roles := roles }

/-- Embeds `tokenFromJSON`. -/
def tokenFromJSON (data : List Nat) : Option (Token × List String) :=
  (unmarshalTokenData data).map fun td =>
    ({ accessToken := td.accessToken, tokenType := td.tokenType,
       refreshToken := td.refreshToken, expiry := td.expiry }, td.roles)

/-- Keystream byte `i` obtained by cycling the key. -/
def keyByte (key : List Nat) (i : Nat) : Nat :=
  match key with
  | [] => 0
  | _ => key.getD (i % key.length) 0

/-- XOR a byte stream against the cycled key starting at offset `i`. -/
def xorStream (key : List Nat) (i : Nat) : List Nat → List Nat
  | [] => []
  | b :: rest => (b ^^^ keyByte key i) :: xorStream key (i + 1) rest

/-- Modelled from the spec: the `encrypt` helper called by
`AuthService.encryptToken` is not among the provided sources (only its
callers are).  The spec says only that the session row stores an encrypted
token blob under the 32-byte `SecretKey`, so it is modelled as a symmetric
stream cipher XOR-ing the plaintext with a keystream cycled from the key. -/
def encrypt (plaintext key : List Nat) : List Nat :=
  xorStream key 0 plaintext

/-- Modelled from the spec: inverse of `encrypt` under the same key (the
`decrypt` helper is likewise absent from the provided sources). -/
def decrypt (data key : List Nat) : Except String (List Nat) :=
  .ok (xorStream key 0 data)

/-- Embeds `AuthService.encryptToken`: serialize, then encrypt under the
configured secret key (serialization of `tokenData` cannot fail). -/
def encryptToken (secretKey : List Nat) (token : Token) (roles : List String) :
    List Nat :=
  encrypt (tokenToJSON token roles) secretKey

/-- Embeds `AuthService.decryptToken`: decrypt under the configured secret
key, then deserialize. -/
def decryptToken (secretKey : List Nat) (data : List Nat) :
    Option (Token × List String) :=
  match decrypt data secretKey with
  | .error _ => none
  | .ok plaintext => tokenFromJSON plaintext

/-- A row of the `sessions` table (timestamps other than `expires_at` are
not read back by the embedded code). -/
structure SessionRow where
  sessionID : String
  userID : Int
  tokenData : List Nat
  idToken : String
  expiresAt : Nat
deriving Repr, DecidableEq

/-- A row of the `users` table. -/
structure UserRow where
  id : Int
  authSub : String
  email : String
  displayName : String
deriving Repr, DecidableEq

/-- The session store's database state. -/
structure Db where
  sessions : List SessionRow
  users : List UserRow
deriving Repr, DecidableEq

/-- Query `GetSession :one` — `SELECT ... FROM sessions WHERE session_id = $1
LIMIT 1`. -/
def dbGetSession (db : Db) (sessionID : String) : Option SessionRow :=
  db.sessions.find? fun r => r.sessionID = sessionID

/-- Query `GetUserByID :one`. -/
def dbGetUserByID (db : Db) (id : Int) : Option UserRow :=
  db.users.find? fun u => u.id = id

/-- Query `CreateSession :exec` — a plain `INSERT`, so a duplicate `session_id`
violates the primary key. -/
def dbCreateSession (db : Db) (row : SessionRow) : Except String Db :=
  if db.sessions.any fun r => r.sessionID = row.sessionID then
    .error "duplicate key value violates unique constraint"
  else .ok { db with sessions := db.sessions ++ [row] }

/-- Query `UpdateSessionToken :exec` — `UPDATE sessions SET token_data = $2 WHERE
session_id = $1`. -/
def dbUpdateSessionToken (db : Db) (sessionID : String) (blob : List Nat) : Db :=
  { db with
    sessions := db.sessions.map fun r =>
      if r.sessionID = sessionID then { r with tokenData := blob } else r }

/-- Embeds the `SessionData` fields the session subsystem manipulates. -/
structure SessionData where
  token : Token
  idToken : String
  userID : String
  userDBID : Int
  email : String
  displayName : String
  roles : List String
  expires : Nat
deriving Repr, DecidableEq

/-- Embeds `AuthService.GetSession`: fetch the row, decrypt the blob, fetch
the owning user, and assemble the `SessionData` (`none` is the `false`
return). -/
def GetSession (secretKey : List Nat) (db : Db) (sessionID : String) :
    Option SessionData :=
  match dbGetSession db sessionID with
  | none => none
  | some row =>
      match decryptToken secretKey row.tokenData with
      | none => none
      | some tr =>
          match dbGetUserByID db row.userID with
          | none => none
          | some user =>
              some { token := tr.1, idToken := row.idToken, userID := user.authSub,
                     userDBID := user.id, email := user.email,
                     displayName := user.displayName, roles := tr.2,
                     expires := row.expiresAt }

/-- Embeds `AuthService.SetSession`: encrypt the token blob and insert the
session row. -/
def SetSession (secretKey : List Nat) (db : Db) (sessionID : String)
    (session : SessionData) : Except String Db :=
  dbCreateSession db
    { sessionID := sessionID, userID := session.userDBID,
      tokenData := encryptToken secretKey session.token session.roles,
      idToken := session.idToken, expiresAt := session.expires }

/-- Embeds `AuthService.RefreshToken`: a no-op returning a nil error while
the token's expiry is strictly after `now`; otherwise obtain a fresh token
from the OAuth2 token source (external, passed as its outcome), replace
`session.Token`, and update the stored encrypted blob for that session ID. -/
def RefreshToken (secretKey : List Nat) (now : Nat)
    (tokenSource : Except String Token) (db : Db) (sessionID : String)
    (session : SessionData) : Except String (SessionData × Db) :=
  if session.token.expiry > now then .ok (session, db)
  else
    match tokenSource with
    | .error e => .error e
    | .ok newToken =>
        .ok ({ session with token := newToken },
          dbUpdateSessionToken db sessionID
            (encryptToken secretKey newToken session.roles))

mutual
/-- A parse tree is extraction-closed when the extractor never follows a
`root.Lookup` on it: it contains no `TemplateNode` in a position the
extractor visits. -/
def extractionClosed : PNode → Bool
  | .pipeN _ => true
  | .actionN _ => true
  | .templateN _ _ => false
  | .listN ns => closedList ns
  | .ifN _ l el =>
      extractionClosed l &&
        (match el with
         | some e => extractionClosed e
         | none => true)
  | .rangeN _ _ _ => true
  | .withN _ l _ => extractionClosed l
  | .textN => true

/-- Lifts `extractionClosed` over a `ListNode`'s children. -/
def closedList : List PNode → Bool
  | [] => true
  | h :: t => extractionClosed h && closedList t
end

mutual
/-- Specification-side description of the tree `extractFieldHelper` builds
(the claim's words): the exported field names at each level, children
recorded only under fields whose type is itself a struct. -/
def specFieldChildren : List (String × Bool × GoType) → List (String × templateField)
  | [] => []
  | (n, exp, ty) :: rest =>
      if exp then (n, templateField.mk n (specTypeChildren ty)) :: specFieldChildren rest
      else specFieldChildren rest

/-- Children contributed by a field's type: only a struct type contributes. -/
def specTypeChildren : GoType → List (String × templateField)
  | .structT gs => specFieldChildren gs
  | _ => []
end

mutual
/-- Well-formedness of a reflected struct type: field names are distinct at
every level (as Go guarantees for real struct types). -/
def wfFields : List (String × Bool × GoType) → Bool
  | [] => true
  | (n, _, ty) :: rest =>
      (rest.all fun p => p.1 != n) && wfType ty && wfFields rest

/-- Lifts `wfFields` through a field's type. -/
def wfType : GoType → Bool
  | .structT fs => wfFields fs
  | _ => true
end

/-! ### Concrete sample objects used by the witnesses -/

/-- A sample struct type with an exported leaf, an unexported field, a
nested struct field and a pointer-to-struct field. -/
def sampleStructFields : List (String × Bool × GoType) :=
  [("Email", true, .otherT), ("hidden", false, .otherT),
   ("Inner", true, .structT [("X", true, .otherT)]),
   ("Ptr", true, .ptrT (.structT [("Y", true, .otherT)]))]

/-- A template namespace whose page invokes `{{template "footer" .}}` while
the `footer` block alone references the field `.X`. -/
def tmplFooter : Templates :=
  [("page.html", .listN [.templateN "footer" (some ⟨[[.dotArg]]⟩)]),
   ("footer", .actionN ⟨[[.fieldArg ["X"]]]⟩)]

/-- A template namespace whose page references only `.A`, with an unused
`footer` block definition to be inserted. -/
def tmplPlain : Templates := [("page.html", .actionN ⟨[[.fieldArg ["A"]]]⟩)]


/-- A sample parsed page template referencing the field `.A`. -/
def sampleTmpl : Templates := [("p", .actionN ⟨[[.fieldArg ["A"]]]⟩)]

/-- A sample manager storing `sampleTmpl` under path `p`, hot reload off. -/
def sampleTM : TemplateManager :=
  { storedTemplates := [("p", sampleTmpl)], baseExists := false,
    options := { rootDir := "pages", includeDir := "", baseTemplate := "base.html",
                 reload := false } }

/-- An empty filesystem (irrelevant when reload is off). -/
def sampleFS : FS := ⟨[], []⟩

/-- A sample view model exposing exactly the exported leaf field `A`. -/
def sampleModel : GoValue := .structV [("A", true, .otherT)]

/-- A 32-byte sample secret key. -/
def sampleKey : List Nat := List.replicate 32 7

/-- A sample user row. -/
def sampleUser : UserRow := ⟨1, "auth-sub-1", "user@example.com", "User One"⟩

/-- A sample database with one user and no sessions. -/
def sampleDb : Db := ⟨[], [sampleUser]⟩

/-- A sample session. -/
def sampleSession : SessionData :=
  { token := ⟨"access", "Bearer", "refresh", 100⟩, idToken := "idtok",
    userID := "auth-sub-1", userDBID := 1, email := "user@example.com",
    displayName := "User One", roles := ["admin"], expires := 200 }

/-- A fresh token handed out by the OAuth2 token source in the witness. -/
def freshToken : Token := ⟨"access2", "Bearer", "refresh2", 500⟩

/-- A sample page template that defines a `content` block. -/
def sampleTmplContent : Templates := [("pb", .textN), ("content", .textN)]

/-- A manager storing `sampleTmplContent` under `pb` with a base template
present among the includes. -/
def sampleTMBase : TemplateManager :=
  { storedTemplates := [("pb", sampleTmplContent)], baseExists := true,
    options := { rootDir := "pages", includeDir := "inc",
                 baseTemplate := "base.html", reload := false } }

/-- A filesystem whose walked root dir holds one page template file. -/
def sampleFSLive : FS :=
  ⟨[], [("pages/q.html", false, .parsed (.actionN ⟨[[.fieldArg ["A"]]]⟩) [])]⟩

/-- A manager with hot reload enabled (its stale registry is empty). -/
def sampleTMReload : TemplateManager :=
  { storedTemplates := [], baseExists := false,
    options := { rootDir := "pages", includeDir := "", baseTemplate := "base.html",
                 reload := true } }

/-! ## Helper lemmas -/

mutual
/-- Lemma: `compareTemplateFields` returns two empty lists exactly when the trees
agree structurally. -/
theorem compare_eq_nil_iff_agree (tf sf : templateField) :
    compareTemplateFields tf sf = ([], []) ↔ fieldTreesAgree tf sf = true := by
  match tf, sf with
  | .mk tn tcs, .mk sn scs =>
    rw [compareTemplateFields, fieldTreesAgree]
    have h1 := cmpChildren_eq_nil_iff_agree sn scs tcs
    constructor
    · intro h
      rw [Prod.mk.injEq] at h
      obtain ⟨hm, he⟩ := h
      rw [List.append_eq_nil] at he
      rw [Bool.and_eq_true]
      refine ⟨h1.mp ?_, ?_⟩
      · rw [Prod.mk.injEq]; exact ⟨hm, he.1⟩
      · rw [List.all_eq_true]
        intro p hp
        by_contra hnone
        have : (if (lookupChild tcs p.1).isSome then none
                else some (tn ++ "->" ++ p.1)) = some (tn ++ "->" ++ p.1) := by
          simp [hnone]
        have hmem : (tn ++ "->" ++ p.1) ∈ scs.filterMap fun p =>
            if (lookupChild tcs p.1).isSome then none
            else some (tn ++ "->" ++ p.1) := by
          exact List.mem_filterMap.mpr ⟨p, hp, this⟩
        rw [he.2] at hmem
        exact (List.not_mem_nil _) hmem
    · intro h
      rw [Bool.and_eq_true] at h
      obtain ⟨ha, hall⟩ := h
      have h2 := h1.mpr ha
      rw [Prod.mk.injEq] at h2 ⊢
      refine ⟨h2.1, ?_⟩
      rw [List.append_eq_nil]
      refine ⟨h2.2, ?_⟩
      rw [List.filterMap_eq_nil_iff]
      intro p hp
      rw [List.all_eq_true] at hall
      simp [hall p hp]
termination_by sizeOf tf

/-- The template-children loop of `compareTemplateFields` returns two empty
lists exactly when `agreeChildren` holds. -/
theorem cmpChildren_eq_nil_iff_agree (sname : String)
    (scs tcs : List (String × templateField)) :
    cmpChildren sname scs tcs = ([], []) ↔ agreeChildren scs tcs = true := by
  match tcs with
  | [] => simp [cmpChildren, agreeChildren]
  | (name, child) :: rest =>
    rw [cmpChildren, agreeChildren]
    have ihtail := cmpChildren_eq_nil_iff_agree sname scs rest
    cases hlk : lookupChild scs name with
    | none =>
      simp only [hlk]
      constructor
      · intro h
        rw [Prod.mk.injEq] at h
        exact absurd h.1 (by simp)
      · intro h
        exact absurd h (by simp)
    | some sc =>
      simp only [hlk]
      have ihhead := compare_eq_nil_iff_agree child sc
      constructor
      · intro h
        rw [Prod.mk.injEq, List.append_eq_nil, List.append_eq_nil] at h
        rw [Bool.and_eq_true]
        constructor
        · exact ihhead.mp (by
            rw [Prod.mk.injEq]
            exact ⟨h.1.1, h.2.1⟩)
        · exact ihtail.mp (by
            rw [Prod.mk.injEq]
            exact ⟨h.1.2, h.2.2⟩)
      · intro h
        rw [Bool.and_eq_true] at h
        have hh := ihhead.mpr h.1
        have ht := ihtail.mpr h.2
        rw [Prod.mk.injEq] at hh ht ⊢
        rw [hh.1, hh.2, ht.1, ht.2]
        exact ⟨rfl, rfl⟩
termination_by sizeOf tcs
end

/-- Validation reports a nil error exactly when the two field trees agree
structurally. -/
theorem validate_none_iff_agree (data : GoValue) (tmpl : Templates)
    (templatePath : String) (fuel : Nat) :
    validateViewModelAllBlocks data tmpl templatePath fuel = none ↔
      fieldTreesAgree (rootTemplateFieldOf tmpl templatePath fuel)
        (extractFieldsFromData data) = true := by
  rw [validateViewModelAllBlocks, ← compare_eq_nil_iff_agree]
  set r := compareTemplateFields (rootTemplateFieldOf tmpl templatePath fuel)
    (extractFieldsFromData data) with hr
  constructor
  · intro h
    by_cases hc : r.2.length = 0 ∧ r.1.length = 0
    · have h1 : r.1 = [] := List.length_eq_zero.mp hc.2
      have h2 : r.2 = [] := List.length_eq_zero.mp hc.1
      calc r = (r.1, r.2) := rfl
        _ = ([], []) := by rw [h1, h2]
    · simp only [if_neg hc] at h
      exact absurd h (by simp)
  · intro h
    have h1 : r.1 = [] := by rw [h]
    have h2 : r.2 = [] := by rw [h]
    simp [h1, h2]

/-- When the trees disagree, validation returns the built-up mismatch
message. -/
theorem validate_some_of_not_agree (data : GoValue) (tmpl : Templates)
    (templatePath : String) (fuel : Nat)
    (h : fieldTreesAgree (rootTemplateFieldOf tmpl templatePath fuel)
        (extractFieldsFromData data) = false) :
    validateViewModelAllBlocks data tmpl templatePath fuel =
      some (mismatchMessage
        (compareTemplateFields (rootTemplateFieldOf tmpl templatePath fuel)
          (extractFieldsFromData data)).1
        (compareTemplateFields (rootTemplateFieldOf tmpl templatePath fuel)
          (extractFieldsFromData data)).2) := by
  rw [validateViewModelAllBlocks]
  set r := compareTemplateFields (rootTemplateFieldOf tmpl templatePath fuel)
    (extractFieldsFromData data) with hr
  have hne : ¬ (r.2.length = 0 ∧ r.1.length = 0) := by
    intro hc
    have h1 : r.1 = [] := List.length_eq_zero.mp hc.2
    have h2 : r.2 = [] := List.length_eq_zero.mp hc.1
    have : r = ([], []) := by
      calc r = (r.1, r.2) := rfl
        _ = ([], []) := by rw [h1, h2]
    rw [compare_eq_nil_iff_agree] at this
    rw [this] at h
    cases h
  rw [if_neg hne]

/-- With `Reload` disabled the reload preamble is a no-op. -/
theorem reloadIfNeeded_of_reload_false (tm : TemplateManager) (fs : FS)
    (h : tm.options.reload = false) : reloadIfNeeded tm fs = .ok tm := by
  simp [reloadIfNeeded, h]

/-- XOR-ing with the same keystream twice is the identity. -/
theorem xorStream_xorStream (key : List Nat) (i : Nat) (l : List Nat) :
    xorStream key i (xorStream key i l) = l := by
  induction l generalizing i with
  | nil => rfl
  | cons b rest ih => simp [xorStream, Nat.xor_cancel_right, ih]

theorem decodeChars_encode (cs : List Char) (r : List Nat) :
    decodeChars cs.length (cs.map Char.toNat ++ r) = some (cs, r) := by
  induction cs with
  | nil => rfl
  | cons c rest ih => simp [decodeChars, ih, Char.ofNat_toNat]

theorem decodeString_encode (s : String) (r : List Nat) :
    decodeString (encodeString s ++ r) = some (s, r) := by
  cases s with
  | mk data => simp [encodeString, decodeString, decodeChars_encode]

theorem decodeStrings_encode (l : List String) (r : List Nat) :
    decodeStrings l.length ((l.map encodeString).flatten ++ r) = some (l, r) := by
  induction l with
  | nil => rfl
  | cons s rest ih =>
      simp [decodeStrings, List.append_assoc, decodeString_encode, ih]

/-- The `tokenData` serialization round-trips. -/
theorem unmarshal_marshal (td : tokenData) :
    unmarshalTokenData (marshalTokenData td) = some td := by
  have h5 : decodeStringList (encodeStringList td.roles) = some (td.roles, []) := by
    have := decodeStrings_encode td.roles []
    simpa [encodeStringList, decodeStringList] using this
  simp [marshalTokenData, unmarshalTokenData, List.append_assoc,
    decodeString_encode, h5]

/-- The encrypted token blob round-trips under the same secret key. -/
theorem decryptToken_encryptToken (key : List Nat) (t : Token) (roles : List String) :
    decryptToken key (encryptToken key t roles) = some (t, roles) := by
  simp [decryptToken, encryptToken, decrypt, encrypt, xorStream_xorStream,
    tokenToJSON, tokenFromJSON, unmarshal_marshal]

theorem find?_append_of_eq_none {α} (p : α → Bool) (l1 l2 : List α)
    (h : l1.find? p = none) : (l1 ++ l2).find? p = l2.find? p := by
  induction l1 with
  | nil => rfl
  | cons a t ih =>
      cases hpa : p a with
      | true => simp [List.find?_cons, hpa] at h
      | false =>
          simp only [List.find?_cons, hpa] at h
          simpa [List.find?_cons, hpa] using ih h

theorem lookupStored_insert_self (m : List (String × Templates)) (k : String)
    (t : Templates) : lookupStored (storedInsert m k t) k = some t := by
  induction m with
  | nil => simp [storedInsert, lookupStored]
  | cons h tl ih =>
      obtain ⟨k', v⟩ := h
      by_cases hk : k' = k
      · simp [storedInsert, lookupStored, hk]
      · simp [storedInsert, lookupStored, hk, ih]

theorem lookupStored_insert_ne (m : List (String × Templates)) (k k' : String)
    (t : Templates) (h : k' ≠ k) :
    lookupStored (storedInsert m k' t) k = lookupStored m k := by
  induction m with
  | nil => simp [storedInsert, lookupStored, h]
  | cons hd tl ih =>
      obtain ⟨k0, v⟩ := hd
      by_cases hk : k0 = k'
      · subst hk
        simp [storedInsert, lookupStored, h]
      · simp [storedInsert, lookupStored, hk, ih]

/-- Walking preserves presence of already-stored keys. -/
theorem walkLoad_preserves_present (rootDir : String) (includes : Templates) :
    ∀ (entries : List (String × Bool × TemplateSrc))
      (stored final : List (String × Templates)),
      walkLoad rootDir includes stored entries = .ok final →
      ∀ k, lookupStored stored k ≠ none → lookupStored final k ≠ none := by
  intro entries
  induction entries with
  | nil =>
      intro stored final hw k hk
      rw [walkLoad] at hw
      cases hw
      exact hk
  | cons e rest ih =>
      intro stored final hw k hk
      obtain ⟨fp, d, s⟩ := e
      rw [walkLoad] at hw
      by_cases hd : d = true
      · rw [if_pos hd] at hw
        exact ih stored final hw k hk
      · rw [if_neg hd] at hw
        cases hrel : relPath rootDir fp with
        | error e2 => simp only [hrel] at hw; cases hw
        | ok key =>
            simp only [hrel] at hw
            cases hp : parseInto includes key s with
            | error e2 => simp only [hp] at hw; cases hw
            | ok ns =>
                simp only [hp] at hw
                refine ih _ final hw k ?_
                by_cases hkk : key = k
                · subst hkk
                  rw [lookupStored_insert_self]
                  exact Option.some_ne_none _
                · rw [lookupStored_insert_ne _ _ _ _ hkk]
                  exact hk

/-- Every non-directory entry consumed by a successful walk admits a
relative key and a successful parse, and that key is present in the final
registry. -/
theorem walkLoad_entry_stored (rootDir : String) (includes : Templates) :
    ∀ (entries : List (String × Bool × TemplateSrc))
      (stored final : List (String × Templates)),
      walkLoad rootDir includes stored entries = .ok final →
      ∀ p src, (p, false, src) ∈ entries →
        ∃ key, relPath rootDir p = .ok key ∧
          (∃ ns, parseInto includes key src = .ok ns) ∧
          lookupStored final key ≠ none := by
  intro entries
  induction entries with
  | nil => intro stored final _ p src hmem; cases hmem
  | cons e rest ih =>
      intro stored final hok p src hmem
      obtain ⟨fp, d, s⟩ := e
      rw [walkLoad] at hok
      by_cases hd : d = true
      · rw [if_pos hd] at hok
        rcases List.mem_cons.mp hmem with hhd | htl
        · injection hhd with h1 h2
          injection h2 with h2a h2b
          rw [hd] at h2a
          cases h2a
        · exact ih stored final hok p src htl
      · rw [if_neg hd] at hok
        cases hrel : relPath rootDir fp with
        | error e2 => simp only [hrel] at hok; cases hok
        | ok key =>
            simp only [hrel] at hok
            cases hp : parseInto includes key s with
            | error e2 => simp only [hp] at hok; cases hok
            | ok ns =>
                simp only [hp] at hok
                rcases List.mem_cons.mp hmem with hhd | htl
                · injection hhd with h1 h2
                  injection h2 with h2a h2b
                  subst h1
                  subst h2b
                  refine ⟨key, hrel, ⟨ns, hp⟩, ?_⟩
                  refine walkLoad_preserves_present rootDir includes rest _ final hok key ?_
                  rw [lookupStored_insert_self]
                  exact Option.some_ne_none _
                · exact ih _ final hok p src htl

/-- Every key of the registry produced by a successful walk comes from a
walked non-directory file via `relPath` (or was already in the
accumulator). -/
theorem walkLoad_key_origin (rootDir : String) (includes : Templates) :
    ∀ (entries : List (String × Bool × TemplateSrc))
      (stored final : List (String × Templates)),
      walkLoad rootDir includes stored entries = .ok final →
      ∀ k, lookupStored final k ≠ none →
        lookupStored stored k ≠ none ∨
          ∃ p src, (p, false, src) ∈ entries ∧ relPath rootDir p = .ok k := by
  intro entries
  induction entries with
  | nil =>
      intro stored final hok k hk
      rw [walkLoad] at hok
      cases hok
      exact Or.inl hk
  | cons e rest ih =>
      intro stored final hok k hk
      obtain ⟨fp, d, s⟩ := e
      rw [walkLoad] at hok
      by_cases hd : d = true
      · rw [if_pos hd] at hok
        rcases ih stored final hok k hk with h | ⟨p, src, hmem, hrel⟩
        · exact Or.inl h
        · exact Or.inr ⟨p, src, List.mem_cons_of_mem _ hmem, hrel⟩
      · rw [if_neg hd] at hok
        cases hrel : relPath rootDir fp with
        | error e2 => simp only [hrel] at hok; cases hok
        | ok key =>
            simp only [hrel] at hok
            cases hp : parseInto includes key s with
            | error e2 => simp only [hp] at hok; cases hok
            | ok ns =>
                simp only [hp] at hok
                rcases ih _ final hok k hk with h | ⟨p, src, hmem, hrel2⟩
                · by_cases hkk : key = k
                  · subst hkk
                    refine Or.inr ⟨fp, s, ?_, hrel⟩
                    have hdf : d = false := by
                      cases d
                      · rfl
                      · exact absurd rfl hd
                    rw [← hdf]
                    exact List.mem_cons_self _ _
                  · rw [lookupStored_insert_ne _ _ _ _ hkk] at h
                    exact Or.inl h
                · exact Or.inr ⟨p, src, List.mem_cons_of_mem _ hmem, hrel2⟩

/-- Comparing against a childless data tree reports exactly the template
tree's top-level children as missing, in order, and nothing extra. -/
theorem cmpChildren_empty_struct (sname : String)
    (tcs : List (String × templateField)) :
    cmpChildren sname [] tcs = (tcs.map fun p => sname ++ "->" ++ p.1, []) := by
  induction tcs with
  | nil => rfl
  | cons h t ih =>
      obtain ⟨nm, child⟩ := h
      rw [cmpChildren]
      simp [lookupChild, ih]

/-- Comparison against a childless data tree. -/
theorem compare_with_childless (tf : templateField) (sname : String) :
    compareTemplateFields tf (templateField.mk sname []) =
      (tf.children.map fun p => sname ++ "->" ++ p.1, []) := by
  obtain ⟨tn, tcs⟩ := tf
  rw [compareTemplateFields]
  simp [cmpChildren_empty_struct, templateField.children]

/-! ## Claim theorems -/

/-- C2 counterexample: the claim says a difference confined to leaves one
tree has and the other lacks does not make the comparison report a
mismatch.  But for the pair (template tree with single leaf `A`, data tree
with no children) — a difference confined to one missing leaf — the
comparison reports `A` missing, and for a model exposing one extra leaf
`B` against a template referencing nothing, validation fails with `B`
extra. -/
theorem compare_leaf_difference_cex :
    compareTemplateFields (templateField.mk "Root" [("A", templateField.mk "A" [])])
        (templateField.mk "Root" []) = (["Root->A"], []) ∧
    ((["Root->A"], ([] : List String)) ≠ (([] : List String), ([] : List String))) ∧
    validateViewModelAllBlocks (GoValue.structV [("B", true, GoType.otherT)])
        [("p", PNode.textN)] "p" 1 = some "extra fields [Root->B] " :=
  ⟨rfl, by decide, rfl⟩

/-- C2 (amended): the two field trees are compared for full recursive
structural equality — `compareTemplateFields` reports no mismatch (both
result lists empty, hence validation succeeds) exactly when the trees agree
on their entire child-name structure; a leaf present in one tree and absent
from the other is reported as a missing or extra field and fails
validation. -/
theorem compare_no_mismatch_iff_trees_agree :
    (∀ tf sf : templateField,
        compareTemplateFields tf sf = ([], []) ↔ fieldTreesAgree tf sf = true) ∧
    (∀ (data : GoValue) (tmpl : Templates) (templatePath : String) (fuel : Nat),
        validateViewModelAllBlocks data tmpl templatePath fuel = none ↔
          fieldTreesAgree (rootTemplateFieldOf tmpl templatePath fuel)
            (extractFieldsFromData data) = true) :=
  ⟨compare_eq_nil_iff_agree, validate_none_iff_agree⟩

/-- C1: with hot reload disabled, `GetTemplate` and `getExecutor` return a
non-nil error exactly when no template is stored under the path or the
field tree extracted from the template's validated blocks disagrees with
the field tree extracted from the sample model (a mismatch is a missing or
an extra field, `fieldTreesAgree = false`); on a validation failure no
template is returned, and when the trees agree the stored parsed template
is returned with a nil error (and the registry state is untouched). -/
theorem getTemplate_error_iff_absent_or_mismatch
    (tm : TemplateManager) (fs : FS) (templatePath : String) (model : GoValue)
    (fuel : Nat) (hre : tm.options.reload = false) :
    (lookupStored tm.storedTemplates templatePath = none →
        GetTemplate tm fs templatePath model fuel =
          .error ("couldn't find template: " ++ templatePath) ∧
        getExecutor tm templatePath model fuel =
          .error ("couldn't find template: " ++ templatePath)) ∧
    (∀ tmpl, lookupStored tm.storedTemplates templatePath = some tmpl →
        (fieldTreesAgree (rootTemplateFieldOf tmpl templatePath fuel)
            (extractFieldsFromData model) = true →
          GetTemplate tm fs templatePath model fuel = .ok (tmpl, tm) ∧
          getExecutor tm templatePath model fuel =
            .ok { templateName := templatePath,
                  baseTemplateName := tm.options.baseTemplate }) ∧
        (fieldTreesAgree (rootTemplateFieldOf tmpl templatePath fuel)
            (extractFieldsFromData model) = false →
          ∃ e, GetTemplate tm fs templatePath model fuel = .error e ∧
            getExecutor tm templatePath model fuel = .error e)) := by
  have hpre := reloadIfNeeded_of_reload_false tm fs hre
  constructor
  · intro hnone
    refine ⟨?_, ?_⟩
    · simp [GetTemplate, hpre, hnone]
    · simp [getExecutor, hnone]
  · intro tmpl hsome
    constructor
    · intro hagree
      have hval := (validate_none_iff_agree model tmpl templatePath fuel).mpr hagree
      refine ⟨?_, ?_⟩
      · simp [GetTemplate, hpre, hsome, hval]
      · simp [getExecutor, hsome, hval]
    · intro hdis
      have hval := validate_some_of_not_agree model tmpl templatePath fuel hdis
      refine ⟨"couldn't validate view model for [" ++ templatePath ++ "]: " ++
        mismatchMessage
          (compareTemplateFields (rootTemplateFieldOf tmpl templatePath fuel)
            (extractFieldsFromData model)).1
          (compareTemplateFields (rootTemplateFieldOf tmpl templatePath fuel)
            (extractFieldsFromData model)).2, ?_, ?_⟩
      · simp [GetTemplate, hpre, hsome, hval]
      · simp [getExecutor, hsome, hval]

/-- C4: after a successful `loadTemplates`, every non-directory file found
under `RootDir` during the walk is stored in the registry under a key
obtained by `relPath` — for a non-trivial root the `RootDir` prefix and a
single leading `/` stripped from the file's path —, `relPath` returns an
error for any walked path that does not have `RootDir` as a prefix, and
conversely every key in the registry is the relative path of some walked
non-directory file. -/
theorem loadTemplates_registry_keyed_by_relative_path
    (opts : TemplateManagerOptions) (fs : FS)
    (r : List (String × Templates) × Bool)
    (hok : loadTemplates opts fs = .ok r) :
    (∀ p src, (p, false, src) ∈ fs.walkEntries →
        ∃ key, relPath opts.rootDir p = .ok key ∧
          lookupStored r.1 key ≠ none) ∧
    (∀ base target, base ≠ "." → base ≠ "" → strHasPfx target base = false →
        relPath base target =
          .error ("target \"" ++ target ++ "\" is not under base \"" ++ base ++ "\"")) ∧
    (∀ k, lookupStored r.1 k ≠ none →
        ∃ p src, (p, false, src) ∈ fs.walkEntries ∧
          relPath opts.rootDir p = .ok k) ∧
    (∀ base target, base ≠ "." → base ≠ "" → strHasPfx target base = true →
        relPath base target = .ok (trimPfx (trimPfx target base) "/")) := by
  rw [loadTemplates] at hok
  cases hinc : loadIncludes opts fs with
  | error e => rw [hinc] at hok; cases hok
  | ok includes =>
      rw [hinc] at hok
      cases hw : walkLoad opts.rootDir includes [] fs.walkEntries with
      | error e => simp only [hw] at hok; cases hok
      | ok stored =>
          simp only [hw] at hok
          cases hok
          refine ⟨?_, ?_, ?_, ?_⟩
          · intro p src hmem
            obtain ⟨key, hrel, _, hpres⟩ :=
              walkLoad_entry_stored opts.rootDir includes fs.walkEntries [] stored
                hw p src hmem
            exact ⟨key, hrel, hpres⟩
          · intro base target hdot hemp hpfx
            rw [relPath, if_neg (by simp [hdot, hemp]), if_pos (by simp [hpfx])]
          · intro k hk
            rcases walkLoad_key_origin opts.rootDir includes fs.walkEntries [] stored
                hw k hk with h | ⟨p, src, hmem, hrel⟩
            · exact absurd rfl h
            · exact ⟨p, src, hmem, hrel⟩
          · intro base target hdot hemp hpfx
            rw [relPath, if_neg (by simp [hdot, hemp]), if_neg (by simp [hpfx])]

/-- Witness for C1 at a concrete manager, path and model. -/
theorem getTemplate_error_iff_absent_or_mismatch_witness :
    sampleTM.options.reload = false ∧
    lookupStored sampleTM.storedTemplates "p" = some sampleTmpl ∧
    fieldTreesAgree (rootTemplateFieldOf sampleTmpl "p" 1)
      (extractFieldsFromData sampleModel) = true ∧
    GetTemplate sampleTM sampleFS "p" sampleModel 1 = .ok (sampleTmpl, sampleTM) ∧
    getExecutor sampleTM "p" sampleModel 1 =
      .ok { templateName := "p", baseTemplateName := "base.html" } :=
  ⟨rfl, rfl, rfl,
    (getTemplate_error_iff_absent_or_mismatch sampleTM sampleFS "p" sampleModel 1
      rfl).2 sampleTmpl rfl |>.1 rfl⟩

/-- C6: the session's token blob round-trips: decrypting an encrypted blob
under the same secret key recovers the access token, token type, refresh
token, expiry and role list; consequently `SetSession` followed by
`GetSession` on the same (fresh) session ID — with the owning user present
— yields a `SessionData` carrying the stored token and roles. -/
theorem session_token_roundtrip
    (key : List Nat) (db : Db) (sessionID : String) (s : SessionData) (u : UserRow)
    (hfresh : dbGetSession db sessionID = none)
    (huser : dbGetUserByID db s.userDBID = some u) :
    (∀ (t : Token) (roles : List String),
        decryptToken key (encryptToken key t roles) = some (t, roles)) ∧
    ∃ db', SetSession key db sessionID s = .ok db' ∧
      ∃ sd, GetSession key db' sessionID = some sd ∧
        sd.token = s.token ∧ sd.roles = s.roles ∧ sd.idToken = s.idToken ∧
        sd.expires = s.expires ∧ sd.userDBID = u.id ∧ sd.email = u.email := by
  refine ⟨fun t roles => decryptToken_encryptToken key t roles, ?_⟩
  have hrow :
      (fun (r : SessionRow) => decide (r.sessionID = sessionID)) ⟨sessionID,
        s.userDBID, encryptToken key s.token s.roles, s.idToken, s.expires⟩ = true := by
    simp
  have hany : (db.sessions.any fun r => r.sessionID = sessionID) = false := by
    rw [List.any_eq_false]
    intro r hr
    have := List.find?_eq_none.mp hfresh r hr
    simpa using this
  refine ⟨{ db with sessions := db.sessions ++ [⟨sessionID, s.userDBID,
    encryptToken key s.token s.roles, s.idToken, s.expires⟩] }, ?_, ?_⟩
  · simp [SetSession, dbCreateSession, hany]
  · have hfind : dbGetSession { db with sessions := db.sessions ++ [⟨sessionID,
        s.userDBID, encryptToken key s.token s.roles, s.idToken, s.expires⟩] }
        sessionID = some ⟨sessionID, s.userDBID,
        encryptToken key s.token s.roles, s.idToken, s.expires⟩ := by
      rw [dbGetSession]
      show (db.sessions ++ [_]).find? _ = _
      rw [find?_append_of_eq_none _ _ _ hfresh]
      simp [List.find?_cons, hrow]
    have huser' : dbGetUserByID { db with sessions := db.sessions ++ [⟨sessionID,
        s.userDBID, encryptToken key s.token s.roles, s.idToken, s.expires⟩] }
        s.userDBID = some u := huser
    refine ⟨{ token := s.token, idToken := s.idToken, userID := u.authSub,
              userDBID := u.id, email := u.email, displayName := u.displayName,
              roles := s.roles, expires := s.expires }, ?_,
            rfl, rfl, rfl, rfl, rfl, rfl⟩
    simp [GetSession, hfind, decryptToken_encryptToken, huser']

/-- Witness for C6 at a concrete key, database and session. -/
theorem session_token_roundtrip_witness :
    dbGetSession sampleDb "sid" = none ∧
    dbGetUserByID sampleDb sampleSession.userDBID = some sampleUser ∧
    ∃ db', SetSession sampleKey sampleDb "sid" sampleSession = .ok db' ∧
      ∃ sd, GetSession sampleKey db' "sid" = some sd ∧
        sd.token = sampleSession.token ∧ sd.roles = sampleSession.roles ∧
        sd.idToken = sampleSession.idToken ∧ sd.expires = sampleSession.expires ∧
        sd.userDBID = sampleUser.id ∧ sd.email = sampleUser.email :=
  ⟨rfl, rfl,
    (session_token_roundtrip sampleKey sampleDb "sid" sampleSession sampleUser
      rfl rfl).2⟩

/-- C7: `RefreshToken` returns a nil error and leaves both the in-memory
session and the database unchanged whenever the token's expiry is strictly
after the current time; only when the token has expired does it consult the
token source, replace `session.Token` with the fresh token, and update the
stored encrypted blob for that session ID (propagating a token-source
failure untouched). -/
theorem refreshToken_noop_until_expired
    (key : List Nat) (now : Nat) (src : Except String Token) (db : Db)
    (sessionID : String) (s : SessionData) :
    (s.token.expiry > now → RefreshToken key now src db sessionID s = .ok (s, db)) ∧
    (¬ s.token.expiry > now →
        (∀ e, src = .error e → RefreshToken key now src db sessionID s = .error e) ∧
        (∀ nt, src = .ok nt →
            RefreshToken key now src db sessionID s =
              .ok ({ s with token := nt },
                dbUpdateSessionToken db sessionID (encryptToken key nt s.roles)))) := by
  constructor
  · intro h; simp [RefreshToken, h]
  · intro h
    constructor
    · intro e he; simp [RefreshToken, h, he]
    · intro nt hnt; simp [RefreshToken, h, hnt]

/-- Witness for C7: at time 50 the sample token (expiry 100) is untouched;
at time 150 it is replaced and the blob updated. -/
theorem refreshToken_noop_until_expired_witness :
    sampleSession.token.expiry > 50 ∧
    RefreshToken sampleKey 50 (.ok freshToken) sampleDb "sid" sampleSession =
      .ok (sampleSession, sampleDb) ∧
    ¬ sampleSession.token.expiry > 150 ∧
    RefreshToken sampleKey 150 (.ok freshToken) sampleDb "sid" sampleSession =
      .ok ({ sampleSession with token := freshToken },
        dbUpdateSessionToken sampleDb "sid"
          (encryptToken sampleKey freshToken sampleSession.roles)) :=
  ⟨by decide,
    (refreshToken_noop_until_expired sampleKey 50 (.ok freshToken) sampleDb "sid"
      sampleSession).1 (by decide),
    by decide,
    ((refreshToken_noop_until_expired sampleKey 150 (.ok freshToken) sampleDb "sid"
      sampleSession).2 (by decide)).2 freshToken rfl⟩

/-- C3: with hot reload off, `ExecuteToWriter` on a stored page template
executes the base template name exactly when the page defines a `content`
block (`usesBaseLayout`) and a base template was found among the includes
(`baseExists`, which `loadTemplates` sets exactly when the includes
namespace contains the configured `BaseTemplate` name); in every other
case it executes the page template under its own name; the executed
output goes to the supplied writer (the returned `ExecCall`).  The
configured name defaults to `base.html` when left empty. -/
theorem executeToWriter_picks_base_iff_content_and_base
    (tm : TemplateManager) (fs : FS) (te : TemplateExecutor) (data : GoValue)
    (hre : tm.options.reload = false) :
    (∀ tmpl, lookupStored tm.storedTemplates te.templateName = some tmpl →
        ExecuteToWriter tm fs te data =
          .ok ({ tmplNamespace := tmpl,
                 execName :=
                   if usesBaseLayout tmpl && tm.baseExists then te.baseTemplateName
                   else te.templateName,
                 execData := data }, tm)) ∧
    (lookupStored tm.storedTemplates te.templateName = none →
        ExecuteToWriter tm fs te data =
          .error ("couldn't find template: " ++ te.templateName)) ∧
    (∀ opts fs2, loadIncludes opts fs2 = .ok [] → opts.baseTemplate = "" →
        ∀ tm2, NewTemplateManager opts fs2 = .ok tm2 →
          tm2.options.baseTemplate = defaultBaseTemplate) ∧
    (∀ opts fs2 includes, loadIncludes opts fs2 = .ok includes →
        ∀ r, loadTemplates opts fs2 = .ok r →
          r.2 = (tmplLookup includes opts.baseTemplate).isSome) := by
  have hpre := reloadIfNeeded_of_reload_false tm fs hre
  refine ⟨?_, ?_, ?_, ?_⟩
  · intro tmpl hsome
    simp [ExecuteToWriter, getTemplateForExecution, hpre, hsome]
  · intro hnone
    simp [ExecuteToWriter, getTemplateForExecution, hpre, hnone]
  · intro opts fs2 hinc hempty tm2 hok
    simp only [NewTemplateManager, hempty, if_pos] at hok
    cases hl : loadTemplates { opts with baseTemplate := defaultBaseTemplate } fs2 with
    | error e => rw [hl] at hok; cases hok
    | ok r => rw [hl] at hok; cases hok; rfl
  · intro opts fs2 includes hinc r hok
    simp only [loadTemplates, hinc] at hok
    cases hw : walkLoad opts.rootDir includes [] fs2.walkEntries with
    | error e => rw [hw] at hok; cases hok
    | ok stored => rw [hw] at hok; cases hok; rfl

/-- Witness for C3: the `content`-defining page goes through `base.html`. -/
theorem executeToWriter_picks_base_iff_content_and_base_witness :
    sampleTMBase.options.reload = false ∧
    lookupStored sampleTMBase.storedTemplates "pb" = some sampleTmplContent ∧
    ExecuteToWriter sampleTMBase sampleFS ⟨"pb", "base.html"⟩ .nilV =
      .ok ({ tmplNamespace := sampleTmplContent, execName := "base.html",
             execData := .nilV }, sampleTMBase) :=
  ⟨rfl, rfl, by
    have h := (executeToWriter_picks_base_iff_content_and_base sampleTMBase sampleFS
      ⟨"pb", "base.html"⟩ .nilV rfl).1 sampleTmplContent rfl
    simpa using h⟩

/-- C5: when `Reload` is true, `GetTemplate` and `getTemplateForExecution`
first re-read and re-parse all includes and page templates from the
filesystem (a reload failure surfaces as the wrapped reload error) and the
requested path is then looked up in the freshly loaded registry, so the
result reflects the current filesystem contents; when `Reload` is false the
result is independent of the filesystem argument and the manager state
coming out of a successful call is exactly the construction-time state. -/
theorem reload_semantics
    (tm : TemplateManager) (templatePath : String) (model : GoValue) (fuel : Nat) :
    (tm.options.reload = true →
      ∀ fs,
        (∀ e, loadTemplates tm.options fs = .error e →
            GetTemplate tm fs templatePath model fuel =
              .error ("reloading templates: " ++ e) ∧
            getTemplateForExecution tm fs templatePath =
              .error ("reloading templates: " ++ e)) ∧
        (∀ r, loadTemplates tm.options fs = .ok r →
            (lookupStored r.1 templatePath = none →
                getTemplateForExecution tm fs templatePath =
                  .error ("couldn't find template: " ++ templatePath)) ∧
            (∀ tmpl, lookupStored r.1 templatePath = some tmpl →
                getTemplateForExecution tm fs templatePath =
                  .ok (tmpl, { tm with storedTemplates := r.1, baseExists := r.2 }) ∧
                (validateViewModelAllBlocks model tmpl templatePath fuel = none →
                    GetTemplate tm fs templatePath model fuel =
                      .ok (tmpl,
                        { tm with storedTemplates := r.1, baseExists := r.2 }))))) ∧
    (tm.options.reload = false →
      (∀ fs fs2,
          GetTemplate tm fs templatePath model fuel =
            GetTemplate tm fs2 templatePath model fuel ∧
          getTemplateForExecution tm fs templatePath =
            getTemplateForExecution tm fs2 templatePath) ∧
      (∀ fs res, GetTemplate tm fs templatePath model fuel = .ok res → res.2 = tm) ∧
      (∀ fs res, getTemplateForExecution tm fs templatePath = .ok res → res.2 = tm)) := by
  constructor
  · intro hre fs
    have hpre : ∀ x, loadTemplates tm.options fs = x →
        reloadIfNeeded tm fs = (match x with
          | .error e => .error ("reloading templates: " ++ e)
          | .ok r => .ok { tm with storedTemplates := r.1, baseExists := r.2 }) := by
      intro x hx
      simp [reloadIfNeeded, hre, hx]
    constructor
    · intro e he
      have := hpre _ he
      constructor
      · simp [GetTemplate, this]
      · simp [getTemplateForExecution, this]
    · intro r hr
      have hok := hpre _ hr
      constructor
      · intro hnone
        simp [getTemplateForExecution, hok, hnone]
      · intro tmpl hsome
        constructor
        · simp [getTemplateForExecution, hok, hsome]
        · intro hval
          simp [GetTemplate, hok, hsome, hval]
  · intro hre
    refine ⟨?_, ?_, ?_⟩
    · intro fs fs2
      constructor
      · rw [GetTemplate, GetTemplate, reloadIfNeeded_of_reload_false tm fs hre,
          reloadIfNeeded_of_reload_false tm fs2 hre]
      · rw [getTemplateForExecution, getTemplateForExecution,
          reloadIfNeeded_of_reload_false tm fs hre,
          reloadIfNeeded_of_reload_false tm fs2 hre]
    · intro fs res hr
      rw [GetTemplate, reloadIfNeeded_of_reload_false tm fs hre] at hr
      cases hlk : lookupStored tm.storedTemplates templatePath with
      | none => simp only [hlk] at hr; cases hr
      | some tmpl =>
          simp only [hlk] at hr
          cases hv : validateViewModelAllBlocks model tmpl templatePath fuel with
          | none => simp only [hv] at hr; cases hr; rfl
          | some err => simp only [hv] at hr; cases hr
    · intro fs res hr
      rw [getTemplateForExecution, reloadIfNeeded_of_reload_false tm fs hre] at hr
      cases hlk : lookupStored tm.storedTemplates templatePath with
      | none => simp only [hlk] at hr; cases hr
      | some tmpl => simp only [hlk] at hr; cases hr; rfl

/-- Witness for C5: with reload on, a template present only in the current
filesystem is found; with reload off, the state for a successful call is
the construction-time one. -/
theorem reload_semantics_witness :
    sampleTMReload.options.reload = true ∧
    loadTemplates sampleTMReload.options sampleFSLive =
      .ok ([("q.html", [("q.html", .actionN ⟨[[.fieldArg ["A"]]]⟩)])], false) ∧
    getTemplateForExecution sampleTMReload sampleFSLive "q.html" =
      .ok ([("q.html", .actionN ⟨[[.fieldArg ["A"]]]⟩)],
        { sampleTMReload with
            storedTemplates := [("q.html", [("q.html", .actionN ⟨[[.fieldArg ["A"]]]⟩)])],
            baseExists := false }) ∧
    sampleTM.options.reload = false ∧
    GetTemplate sampleTM sampleFS "p" sampleModel 1 = .ok (sampleTmpl, sampleTM) ∧
    (sampleTmpl, sampleTM).2 = sampleTM :=
  ⟨rfl, rfl, by
    have h := ((reload_semantics sampleTMReload "q.html" sampleModel 1).1 rfl
      sampleFSLive).2 ([("q.html", [("q.html", .actionN ⟨[[.fieldArg ["A"]]]⟩)])], false)
      rfl
    exact (h.2 [("q.html", .actionN ⟨[[.fieldArg ["A"]]]⟩)] rfl).1,
   rfl, rfl, by
    exact ((reload_semantics sampleTM "p" sampleModel 1).2 rfl).2.1 sampleFS
      (sampleTmpl, sampleTM) rfl⟩

/-- Witness for C4 at a concrete filesystem: `pages/q.html` is stored under
`q.html`, and a path outside the root is rejected by `relPath`. -/
theorem loadTemplates_registry_keyed_witness :
    loadTemplates sampleTMReload.options sampleFSLive =
      .ok ([("q.html", [("q.html", .actionN ⟨[[.fieldArg ["A"]]]⟩)])], false) ∧
    (∃ key, relPath "pages" "pages/q.html" = .ok key ∧
        lookupStored [("q.html", [("q.html", PNode.actionN ⟨[[.fieldArg ["A"]]]⟩)])]
          key ≠ none) ∧
    relPath "pages" "other/p.html" =
      .error "target \"other/p.html\" is not under base \"pages\"" := by
  have h := loadTemplates_registry_keyed_by_relative_path sampleTMReload.options
    sampleFSLive ([("q.html", [("q.html", .actionN ⟨[[.fieldArg ["A"]]]⟩)])], false) rfl
  refine ⟨rfl, ?_, ?_⟩
  · exact h.1 "pages/q.html" (.parsed (.actionN ⟨[[.fieldArg ["A"]]]⟩) [])
      (List.mem_cons_self _ _)
  · have := h.2.1 "pages" "other/p.html" (by decide) (by decide) rfl
    simpa using this


/-- C8: `extractFieldsFromData` of nil is a field tree with no children, so
validating a nil view model succeeds exactly when the template's validated
blocks reference no fields at all; when the template does reference
fields, the comparison reports exactly the top-level referenced fields as
missing (each as `Root->name`) and none as extra, and `GetTemplate` with a
nil model fails with that error. -/
theorem nil_model_validation (tmpl : Templates) (templatePath : String) (fuel : Nat) :
    extractFieldsFromData .nilV = templateField.mk "Root" [] ∧
    (validateViewModelAllBlocks .nilV tmpl templatePath fuel = none ↔
      (rootTemplateFieldOf tmpl templatePath fuel).children = []) ∧
    compareTemplateFields (rootTemplateFieldOf tmpl templatePath fuel)
        (extractFieldsFromData .nilV) =
      ((rootTemplateFieldOf tmpl templatePath fuel).children.map
        fun p => "Root->" ++ p.1, []) ∧
    (∀ (tm : TemplateManager) (fs : FS), tm.options.reload = false →
      lookupStored tm.storedTemplates templatePath = some tmpl →
      (rootTemplateFieldOf tmpl templatePath fuel).children ≠ [] →
      GetTemplate tm fs templatePath .nilV fuel =
        .error ("couldn't validate view model for [" ++ templatePath ++ "]: " ++
          mismatchMessage
            ((rootTemplateFieldOf tmpl templatePath fuel).children.map
              fun p => "Root->" ++ p.1) [])) := by
  have hnil : extractFieldsFromData .nilV = templateField.mk "Root" [] := rfl
  have hcmp := compare_with_childless (rootTemplateFieldOf tmpl templatePath fuel) "Root"
  rw [hnil]
  refine ⟨rfl, ?_, hcmp, ?_⟩
  · rw [validateViewModelAllBlocks, hnil, hcmp]
    by_cases hc : (rootTemplateFieldOf tmpl templatePath fuel).children = []
    · simp [hc]
    · simp [hc]
  · intro tm fs hre hsome hne
    have hval : validateViewModelAllBlocks .nilV tmpl templatePath fuel =
        some (mismatchMessage
          ((rootTemplateFieldOf tmpl templatePath fuel).children.map
            fun p => "Root->" ++ p.1) []) := by
      rw [validateViewModelAllBlocks, hnil, hcmp]
      simp [hne]
    simp [GetTemplate, reloadIfNeeded_of_reload_false tm fs hre, hsome, hval]

/-- Witness for C8: against `sampleTmpl` (which references `.A`) a nil
model fails validation with exactly `A` missing. -/
theorem nil_model_validation_witness :
    (rootTemplateFieldOf sampleTmpl "p" 1).children =
      [("A", templateField.mk "A" [])] ∧
    validateViewModelAllBlocks .nilV sampleTmpl "p" 1 =
      some "missing fields [Root->A]" ∧
    GetTemplate sampleTM sampleFS "p" .nilV 1 =
      .error "couldn't validate view model for [p]: missing fields [Root->A]" := by
  have h := nil_model_validation sampleTmpl "p" 1
  refine ⟨rfl, rfl, ?_⟩
  have hch : (rootTemplateFieldOf sampleTmpl "p" 1).children =
      [("A", templateField.mk "A" [])] := rfl
  have := h.2.2.2 sampleTM sampleFS rfl rfl
    (by rw [hch]; exact List.cons_ne_nil _ _)
  exact this

/-- Inserting a binding leaves lookups of other names unchanged. -/
theorem tmplLookup_insert_ne (ts : Templates) (name m : String) (tree : PNode)
    (h : m ≠ name) :
    tmplLookup (tmplInsert ts name tree) m = tmplLookup ts m := by
  induction ts with
  | nil =>
      simp only [tmplInsert, tmplLookup]
      rw [if_neg (fun he => h he.symm)]
  | cons hd tl ih =>
      obtain ⟨k, t⟩ := hd
      by_cases hk : k = name
      · subst hk
        simp only [tmplInsert, if_pos rfl, tmplLookup]
        rw [if_neg (fun he => h he.symm), if_neg (fun he => h he.symm)]
      · simp only [tmplInsert, if_neg hk, tmplLookup]
        by_cases hm : k = m
        · rw [if_pos hm, if_pos hm]
        · rw [if_neg hm, if_neg hm, ih]

mutual
/-- On an extraction-closed tree the extractor's result depends neither on
the template namespace nor on the inclusion handler. -/
theorem extractStep_congr (recur1 recur2 : PNode → templateField → templateField)
    (root1 root2 : Templates) (n : PNode) (parent : templateField)
    (h : extractionClosed n = true) :
    extractStep recur1 root1 n parent = extractStep recur2 root2 n parent := by
  match n with
  | .pipeN p => rfl
  | .actionN p => rfl
  | .templateN name po =>
      rw [show extractionClosed (.templateN name po) = false from rfl] at h
      cases h
  | .listN ns =>
      rw [show extractionClosed (.listN ns) = closedList ns from rfl] at h
      rw [show extractStep recur1 root1 (.listN ns) parent =
            extractStepList recur1 root1 ns parent from rfl,
          show extractStep recur2 root2 (.listN ns) parent =
            extractStepList recur2 root2 ns parent from rfl]
      exact extractStepList_congr recur1 recur2 root1 root2 ns parent h
  | .ifN c l el =>
      cases el with
      | none =>
          rw [show extractionClosed (.ifN c l none) =
                (extractionClosed l && true) from rfl, Bool.and_true] at h
          rw [show extractStep recur1 root1 (.ifN c l none) parent =
                extractStep recur1 root1 l parent from rfl,
              show extractStep recur2 root2 (.ifN c l none) parent =
                extractStep recur2 root2 l parent from rfl]
          rw [extractStep_congr recur1 recur2 root1 root2 l parent h]
      | some e =>
          rw [show extractionClosed (.ifN c l (some e)) =
                (extractionClosed l && extractionClosed e) from rfl,
            Bool.and_eq_true] at h
          rw [show extractStep recur1 root1 (.ifN c l (some e)) parent =
                extractStep recur1 root1 e (extractStep recur1 root1 l parent) from rfl,
              show extractStep recur2 root2 (.ifN c l (some e)) parent =
                extractStep recur2 root2 e (extractStep recur2 root2 l parent) from rfl]
          rw [extractStep_congr recur1 recur2 root1 root2 l parent h.1]
          rw [extractStep_congr recur1 recur2 root1 root2 e _ h.2]
  | .rangeN c l el => rfl
  | .withN c l el =>
      rw [show extractionClosed (.withN c l el) = extractionClosed l from rfl] at h
      rw [show extractStep recur1 root1 (.withN c l el) parent =
            extractStep recur1 root1 l parent from rfl,
          show extractStep recur2 root2 (.withN c l el) parent =
            extractStep recur2 root2 l parent from rfl]
      exact extractStep_congr recur1 recur2 root1 root2 l parent h
  | .textN => rfl
termination_by sizeOf n

/-- Lifts `extractStep_congr` over a `ListNode`'s children. -/
theorem extractStepList_congr (recur1 recur2 : PNode → templateField → templateField)
    (root1 root2 : Templates) (ns : List PNode) (parent : templateField)
    (h : closedList ns = true) :
    extractStepList recur1 root1 ns parent = extractStepList recur2 root2 ns parent := by
  match ns with
  | [] => rfl
  | h0 :: t =>
      rw [show closedList (h0 :: t) = (extractionClosed h0 && closedList t) from rfl,
        Bool.and_eq_true] at h
      rw [show extractStepList recur1 root1 (h0 :: t) parent =
            extractStepList recur1 root1 t (extractStep recur1 root1 h0 parent) from rfl,
          show extractStepList recur2 root2 (h0 :: t) parent =
            extractStepList recur2 root2 t (extractStep recur2 root2 h0 parent) from rfl]
      rw [extractStep_congr recur1 recur2 root1 root2 h0 parent h.1]
      exact extractStepList_congr recur1 recur2 root1 root2 t _ h.2
termination_by sizeOf ns
end

/-- On an extraction-closed tree, `extractFieldsFromTemplate` depends
neither on the namespace nor on the fuel. -/
theorem extractFieldsFromTemplate_congr (root1 root2 : Templates)
    (fuel1 fuel2 : Nat) (n : PNode) (parent : templateField)
    (h : extractionClosed n = true) :
    extractFieldsFromTemplate root1 fuel1 n parent =
      extractFieldsFromTemplate root2 fuel2 n parent := by
  cases fuel1 <;> cases fuel2 <;>
    · rw [extractFieldsFromTemplate, extractFieldsFromTemplate]
      exact extractStep_congr _ _ _ _ n parent h

/-- Adding a block whose name is neither the page path nor a known block
name leaves the validation field tree unchanged, provided the inspected
blocks are extraction-closed. -/
theorem rootTemplateFieldOf_insert_closed
    (tmpl : Templates) (name : String) (tree : PNode) (templatePath : String)
    (fuel fuel2 : Nat)
    (hname : name ∉ templatePath :: knownBlocks)
    (hclosed : ∀ b ∈ templatePath :: knownBlocks, ∀ t, tmplLookup tmpl b = some t →
        extractionClosed t = true) :
    rootTemplateFieldOf (tmplInsert tmpl name tree) templatePath fuel =
      rootTemplateFieldOf tmpl templatePath fuel2 := by
  have hlk : ∀ b ∈ templatePath :: knownBlocks,
      tmplLookup (tmplInsert tmpl name tree) b = tmplLookup tmpl b := by
    intro b hb
    refine tmplLookup_insert_ne tmpl name b tree fun he => hname ?_
    rw [← he]
    exact hb
  rw [rootTemplateFieldOf, rootTemplateFieldOf]
  have hfilter : (knownBlocks.filter
        fun n2 => (tmplLookup (tmplInsert tmpl name tree) n2).isSome) =
      knownBlocks.filter fun n2 => (tmplLookup tmpl n2).isSome := by
    apply List.filter_congr
    intro b hb
    rw [hlk b (List.mem_cons_of_mem _ hb)]
  rw [hfilter]
  have hfold : ∀ (names : List String), (∀ b ∈ names, b ∈ templatePath :: knownBlocks) →
      ∀ acc : templateField,
        List.foldl (fun acc nm =>
          match tmplLookup (tmplInsert tmpl name tree) nm with
          | some tr => extractFieldsFromTemplate (tmplInsert tmpl name tree) fuel tr acc
          | none => acc) acc names =
        List.foldl (fun acc nm =>
          match tmplLookup tmpl nm with
          | some tr => extractFieldsFromTemplate tmpl fuel2 tr acc
          | none => acc) acc names := by
    intro names
    induction names with
    | nil => intro _ acc; rfl
    | cons b bs ih =>
        intro hsub acc
        have hb := hsub b (List.mem_cons_self _ _)
        rw [List.foldl_cons, List.foldl_cons]
        have hstep :
            (match tmplLookup (tmplInsert tmpl name tree) b with
             | some tr => extractFieldsFromTemplate (tmplInsert tmpl name tree) fuel tr acc
             | none => acc) =
            (match tmplLookup tmpl b with
             | some tr => extractFieldsFromTemplate tmpl fuel2 tr acc
             | none => acc) := by
          rw [hlk b hb]
          cases hl : tmplLookup tmpl b with
          | none => rfl
          | some tr =>
              exact extractFieldsFromTemplate_congr _ _ _ _ tr acc (hclosed b hb tr hl)
        rw [hstep]
        exact ih (fun x hx => hsub x (List.mem_cons_of_mem _ hx)) _
  apply hfold
  intro b hb
  rcases List.mem_cons.mp hb with h | h
  · rw [h]
    exact List.mem_cons_self _ _
  · exact List.mem_cons_of_mem _ (List.mem_of_mem_filter h)

/-- C9 counterexample: in `tmplFooter` the field `X` is referenced solely
inside the defined block `footer` (whose name is none of the inspected
ones), yet — because the page invokes `{{template "footer" .}}` — `X` is
added to the template's field tree and reported missing. -/
theorem footer_field_added_via_invocation_cex :
    (lookupChild (rootTemplateFieldOf tmplFooter "page.html" 5).children
      "X").isSome = true ∧
    validateViewModelAllBlocks (.structV []) tmplFooter "page.html" 5 =
      some "missing fields [Root->X]" := ⟨rfl, rfl⟩

/-- C9 (amended): validation starts extraction only from the block named by
the template's path and the defined blocks among
`content`/`nav`/`head`/`title`; a field referenced solely inside a defined
block with any other name is never added provided no inspected block
reaches that block through a `{{template}}` invocation — concretely, when
every inspected block's tree is extraction-closed, adding or replacing a
block under any other name changes neither the extracted field tree nor
the validation result.  (When an inspected block does invoke the other
block its fields are extracted; see the counterexample.) -/
theorem validation_ignores_uninvoked_other_blocks
    (tmpl : Templates) (name : String) (tree : PNode) (templatePath : String)
    (data : GoValue) (fuel fuel2 : Nat)
    (hname : name ∉ templatePath :: knownBlocks)
    (hclosed : ∀ b ∈ templatePath :: knownBlocks, ∀ t, tmplLookup tmpl b = some t →
        extractionClosed t = true) :
    rootTemplateFieldOf (tmplInsert tmpl name tree) templatePath fuel =
      rootTemplateFieldOf tmpl templatePath fuel2 ∧
    validateViewModelAllBlocks data (tmplInsert tmpl name tree) templatePath fuel =
      validateViewModelAllBlocks data tmpl templatePath fuel2 := by
  have h := rootTemplateFieldOf_insert_closed tmpl name tree templatePath fuel fuel2
    hname hclosed
  exact ⟨h, by rw [validateViewModelAllBlocks, validateViewModelAllBlocks, h]⟩

/-- Witness for C9's amended claim: adding an uninvoked `footer` block to
`tmplPlain` leaves validation unchanged. -/
theorem validation_ignores_uninvoked_other_blocks_witness :
    ("footer" ∉ "page.html" :: knownBlocks) ∧
    validateViewModelAllBlocks (.structV [("A", true, .otherT)])
        (tmplInsert tmplPlain "footer" (.actionN ⟨[[.fieldArg ["X"]]]⟩))
        "page.html" 3 =
      validateViewModelAllBlocks (.structV [("A", true, .otherT)]) tmplPlain
        "page.html" 3 := by
  refine ⟨by decide, ?_⟩
  refine (validation_ignores_uninvoked_other_blocks tmplPlain "footer"
    (.actionN ⟨[[.fieldArg ["X"]]]⟩) "page.html" (.structV [("A", true, .otherT)])
    3 3 (by decide) ?_).2
  intro b hb t ht
  have hb2 : b = "page.html" ∨ b = "content" ∨ b = "nav" ∨ b = "head" ∨ b = "title" := by
    simpa [knownBlocks] using hb
  rcases hb2 with h | h | h | h | h
  · subst h
    rw [show tmplLookup tmplPlain "page.html" =
        some (.actionN ⟨[[.fieldArg ["A"]]]⟩) from rfl] at ht
    injection ht with ht2
    rw [← ht2]
    rfl
  · subst h
    rw [show tmplLookup tmplPlain "content" = none from rfl] at ht
    cases ht
  · subst h
    rw [show tmplLookup tmplPlain "nav" = none from rfl] at ht
    cases ht
  · subst h
    rw [show tmplLookup tmplPlain "head" = none from rfl] at ht
    cases ht
  · subst h
    rw [show tmplLookup tmplPlain "title" = none from rfl] at ht
    cases ht

/-- A key absent from an association list stays absent after appending a
differently-named entry. -/
theorem lookupChild_append_none (cs : List (String × templateField))
    (n m : String) (t : templateField) (h1 : lookupChild cs m = none)
    (h2 : m ≠ n) : lookupChild (cs ++ [(n, t)]) m = none := by
  induction cs with
  | nil =>
      simp only [List.nil_append, lookupChild]
      rw [if_neg fun he => h2 he.symm]
  | cons hd tl ih =>
      obtain ⟨k, u⟩ := hd
      rw [lookupChild] at h1
      by_cases hk : k = m
      · rw [if_pos hk] at h1
        cases h1
      · rw [if_neg hk] at h1
        simp only [List.cons_append, lookupChild]
        rw [if_neg hk]
        exact ih h1

/-- Setting a fresh key appends the entry. -/
theorem setChild_append (cs : List (String × templateField)) (n : String)
    (t : templateField) (h : lookupChild cs n = none) :
    setChild cs n t = cs ++ [(n, t)] := by
  induction cs with
  | nil => rfl
  | cons hd tl ih =>
      obtain ⟨k, u⟩ := hd
      rw [lookupChild] at h
      by_cases hk : k = n
      · rw [if_pos hk] at h
        cases h
      · rw [if_neg hk] at h
        rw [setChild, if_neg hk, List.cons_append, ih h]

/-- The field loop of `extractFieldHelper` computes exactly the
specification tree, provided the field names are well-formed and the
exported names are fresh in the accumulated children. -/
theorem extractStructFields_spec (fs : List (String × Bool × GoType)) :
    ∀ (name : String) (cs : List (String × templateField)),
      wfFields fs = true →
      (∀ p ∈ fs, p.2.1 = true → lookupChild cs p.1 = none) →
      extractStructFields fs (templateField.mk name cs) =
        templateField.mk name (cs ++ specFieldChildren fs) := by
  match fs with
  | [] =>
      intro name cs _ _
      rw [show extractStructFields [] (templateField.mk name cs) =
            templateField.mk name cs from rfl,
          show specFieldChildren [] = ([] : List (String × templateField)) from rfl,
          List.append_nil]
  | (n, exp, ty) :: rest =>
      intro name cs hwf hfrsh
      rw [show wfFields ((n, exp, ty) :: rest) =
            ((rest.all fun p => p.1 != n) && wfType ty && wfFields rest) from rfl,
          Bool.and_eq_true, Bool.and_eq_true] at hwf
      obtain ⟨⟨hall, hty⟩, hrest⟩ := hwf
      have hfrshrest : ∀ p ∈ rest, p.2.1 = true → lookupChild cs p.1 = none :=
        fun p hp he => hfrsh p (List.mem_cons_of_mem _ hp) he
      cases exp with
      | false =>
          rw [show extractStructFields ((n, false, ty) :: rest)
                (templateField.mk name cs) =
              extractStructFields rest (templateField.mk name cs) from rfl,
            show specFieldChildren ((n, false, ty) :: rest) =
              specFieldChildren rest from rfl]
          exact extractStructFields_spec rest name cs hrest hfrshrest
      | true =>
          have h0 : lookupChild cs n = none :=
            hfrsh (n, true, ty) (List.mem_cons_self _ _) rfl
          have hfresh2 : ∀ (tree : templateField) (p : String × Bool × GoType),
              p ∈ rest → p.2.1 = true →
              lookupChild (cs ++ [(n, tree)]) p.1 = none := by
            intro tree p hp he
            refine lookupChild_append_none cs n p.1 tree (hfrshrest p hp he) ?_
            have := List.all_eq_true.mp hall p hp
            simpa using this
          have happ : ∀ tree : templateField,
              (cs ++ [(n, tree)]) ++ specFieldChildren rest =
                cs ++ ((n, tree) :: specFieldChildren rest) := by
            intro tree
            rw [List.append_assoc, List.singleton_append]
          cases ty with
          | structT gs =>
              rw [show extractStructFields ((n, true, .structT gs) :: rest)
                    (templateField.mk name cs) =
                  extractStructFields rest
                    (modifyPath (extractFieldHelper (.structT gs))
                      (templateField.mk name cs) [n]) from rfl]
              rw [show modifyPath (extractFieldHelper (.structT gs))
                    (templateField.mk name cs) [n] =
                  templateField.mk name (setChild cs n
                    (modifyPath (extractFieldHelper (.structT gs))
                      ((lookupChild cs n).getD (newTemplateField n)) [])) from rfl]
              rw [h0]
              rw [show modifyPath (extractFieldHelper (.structT gs))
                    (((none : Option templateField)).getD (newTemplateField n)) [] =
                  extractStructFields gs (templateField.mk n []) from rfl]
              rw [show wfType (.structT gs) = wfFields gs from rfl] at hty
              rw [extractStructFields_spec gs n [] hty (by intro p hp _; rfl)]
              rw [List.nil_append]
              rw [setChild_append cs n _ h0]
              rw [extractStructFields_spec rest name _ hrest
                (hfresh2 (templateField.mk n (specFieldChildren gs)))]
              rw [happ]
              rw [show specFieldChildren ((n, true, .structT gs) :: rest) =
                  (n, templateField.mk n (specFieldChildren gs)) ::
                    specFieldChildren rest from rfl]
          | ptrT e =>
              rw [show extractStructFields ((n, true, .ptrT e) :: rest)
                    (templateField.mk name cs) =
                  extractStructFields rest
                    (addPath (templateField.mk name cs) [n]) from rfl]
              rw [show addPath (templateField.mk name cs) [n] =
                  templateField.mk name (setChild cs n
                    (modifyPath id ((lookupChild cs n).getD (newTemplateField n)) []))
                  from rfl]
              rw [h0]
              rw [show modifyPath id
                    (((none : Option templateField)).getD (newTemplateField n)) [] =
                  templateField.mk n [] from rfl]
              rw [setChild_append cs n _ h0]
              rw [extractStructFields_spec rest name _ hrest
                (hfresh2 (templateField.mk n []))]
              rw [happ]
              rw [show specFieldChildren ((n, true, .ptrT e) :: rest) =
                  (n, templateField.mk n []) :: specFieldChildren rest from rfl]
          | otherT =>
              rw [show extractStructFields ((n, true, .otherT) :: rest)
                    (templateField.mk name cs) =
                  extractStructFields rest
                    (addPath (templateField.mk name cs) [n]) from rfl]
              rw [show addPath (templateField.mk name cs) [n] =
                  templateField.mk name (setChild cs n
                    (modifyPath id ((lookupChild cs n).getD (newTemplateField n)) []))
                  from rfl]
              rw [h0]
              rw [show modifyPath id
                    (((none : Option templateField)).getD (newTemplateField n)) [] =
                  templateField.mk n [] from rfl]
              rw [setChild_append cs n _ h0]
              rw [extractStructFields_spec rest name _ hrest
                (hfresh2 (templateField.mk n []))]
              rw [happ]
              rw [show specFieldChildren ((n, true, .otherT) :: rest) =
                  (n, templateField.mk n []) :: specFieldChildren rest from rfl]
termination_by sizeOf fs

/-- If some template child's name has no counterpart in the data tree, the
comparison reports at least one missing field. -/
theorem missing_of_absent_child (tf sf : templateField) (nm : String)
    (sub : templateField) (hmem : (nm, sub) ∈ tf.children)
    (habs : lookupChild sf.children nm = none) :
    (compareTemplateFields tf sf).1 ≠ [] := by
  obtain ⟨tn, tcs⟩ := tf
  obtain ⟨sn, scs⟩ := sf
  simp only [templateField.children] at hmem habs
  rw [show (compareTemplateFields (templateField.mk tn tcs)
        (templateField.mk sn scs)).1 = (cmpChildren sn scs tcs).1 from rfl]
  induction tcs with
  | nil => cases hmem
  | cons hd rest ih =>
      obtain ⟨k, c⟩ := hd
      rw [cmpChildren]
      rcases List.mem_cons.mp hmem with hh | ht
      · injection hh with h1 h2
        subst h1
        simp only [habs]
        intro hcon
        have hcon2 : [sn ++ "->" ++ nm] ++ (cmpChildren sn scs rest).1 = [] := hcon
        exact List.cons_ne_nil _ _ hcon2
      · intro hcon
        have hcon2 : (match lookupChild scs k with
            | none => ([sn ++ "->" ++ k], ([] : List String))
            | some sc => compareTemplateFields c sc).1 ++
              (cmpChildren sn scs rest).1 = [] := hcon
        rw [List.append_eq_nil] at hcon2
        exact ih ht hcon2.2

/-- If a template child has its own children while the matching data child
is a leaf, the comparison reports at least one missing field. -/
theorem missing_of_leaf_deref (tf sf : templateField) (nm : String)
    (sub leaf : templateField) (hmem : (nm, sub) ∈ tf.children)
    (hsub : sub.children ≠ []) (hlk : lookupChild sf.children nm = some leaf)
    (hleaf : leaf.children = []) :
    (compareTemplateFields tf sf).1 ≠ [] := by
  obtain ⟨tn, tcs⟩ := tf
  obtain ⟨sn, scs⟩ := sf
  obtain ⟨ln, lcs⟩ := leaf
  simp only [templateField.children] at hmem hlk hleaf
  subst hleaf
  rw [show (compareTemplateFields (templateField.mk tn tcs)
        (templateField.mk sn scs)).1 = (cmpChildren sn scs tcs).1 from rfl]
  induction tcs with
  | nil => cases hmem
  | cons hd rest ih =>
      obtain ⟨k, c⟩ := hd
      rw [cmpChildren]
      rcases List.mem_cons.mp hmem with hh | ht
      · injection hh with h1 h2
        subst h1
        subst h2
        simp only [hlk]
        rw [compare_with_childless sub ln]
        intro hcon
        have hcon2 : (sub.children.map fun p => ln ++ "->" ++ p.1) ++
            (cmpChildren sn scs rest).1 = [] := hcon
        rw [List.append_eq_nil] at hcon2
        exact hsub (List.map_eq_nil_iff.mp hcon2.1)
      · intro hcon
        have hcon2 : (match lookupChild scs k with
            | none => ([sn ++ "->" ++ k], ([] : List String))
            | some sc => compareTemplateFields c sc).1 ++
              (cmpChildren sn scs rest).1 = [] := hcon
        rw [List.append_eq_nil] at hcon2
        exact ih ht hcon2.2

/-- C10: for a well-formed struct view model the extracted field tree has
exactly the exported field names at each level — unexported fields are
skipped and only struct-typed fields get children, so non-struct fields
(strings, slices, maps, pointers) are leaves; consequently a template that
references a field absent from the tree (such as an unexported one), or
dereferences a child of a leaf field, fails the comparison with a missing
field reported. -/
theorem struct_model_extraction_spec
    (fs : List (String × Bool × GoType)) (hwf : wfFields fs = true) :
    extractFieldsFromData (.structV fs) =
      templateField.mk "Root" (specFieldChildren fs) ∧
    (∀ (tf sf : templateField) (nm : String) (sub : templateField),
        (nm, sub) ∈ tf.children → lookupChild sf.children nm = none →
        (compareTemplateFields tf sf).1 ≠ []) ∧
    (∀ (tf sf : templateField) (nm : String) (sub leaf : templateField),
        (nm, sub) ∈ tf.children → sub.children ≠ [] →
        lookupChild sf.children nm = some leaf → leaf.children = [] →
        (compareTemplateFields tf sf).1 ≠ []) := by
  refine ⟨?_, missing_of_absent_child, missing_of_leaf_deref⟩
  rw [show extractFieldsFromData (.structV fs) =
      extractStructFields fs (templateField.mk "Root" []) from rfl]
  rw [extractStructFields_spec fs "Root" [] hwf (by intro p hp _; rfl)]
  rw [List.nil_append]

/-- Witness for C10 on `sampleStructFields`: the extracted tree, a missing
unexported field, and a dereference of the leaf `Email`. -/
theorem struct_model_extraction_spec_witness :
    wfFields sampleStructFields = true ∧
    extractFieldsFromData (.structV sampleStructFields) =
      templateField.mk "Root"
        [("Email", .mk "Email" []),
         ("Inner", .mk "Inner" [("X", .mk "X" [])]),
         ("Ptr", .mk "Ptr" [])] ∧
    (compareTemplateFields
        (templateField.mk "Root" [("hidden", .mk "hidden" [])])
        (extractFieldsFromData (.structV sampleStructFields))).1 ≠ [] ∧
    (compareTemplateFields
        (templateField.mk "Root" [("Email", .mk "Email" [("Sub", .mk "Sub" [])])])
        (extractFieldsFromData (.structV sampleStructFields))).1 ≠ [] := by
  have h := struct_model_extraction_spec sampleStructFields rfl
  refine ⟨rfl, ?_, ?_, ?_⟩
  · rw [h.1]
    rfl
  · exact h.2.1 _ _ "hidden" (.mk "hidden" []) (List.mem_cons_self _ _) rfl
  · exact h.2.2 _ _ "Email" (.mk "Email" [("Sub", .mk "Sub" [])]) (.mk "Email" [])
      (List.mem_cons_self _ _) (List.cons_ne_nil _ _) rfl rfl

end Stoic
